import Mathlib

/-!
Verification of the operation-unification pipeline in `Paga_Recebe.py`.

Shallow embedding conventions:
* a pandas cell is `Cell` (`null` for `NaN`/`pd.NA`/`None`, `num` for numeric
  values modelled as `ℚ`, `str` for text);
* columns whose values are homogeneous in the pipeline are typed directly
  (`Option String`, `Option ℚ`);
* Python's `float(s)` is modelled on its decimal grammar (optional sign,
  digits, at most one point); exotic accepted forms (exponents, `inf`, `nan`,
  underscores) do not occur in the inputs considered here;
* `str.replace` with single-character pattern and replacement is a per-character
  substitution, and replacement by `""` is a per-character deletion; both are
  modelled at the character-list level.
-/

/-- One pandas cell: missing (`NaN` / `pd.NA`), numeric, or text. -/
inductive Cell where
  | null
  | num (q : ℚ)
  | str (s : String)
deriving DecidableEq, Repr

/-- Numeric value of a list of decimal digit characters. -/
def natOfDigits (cs : List Char) : ℕ :=
  cs.foldl (fun n c => 10 * n + (c.toNat - 48)) 0

/-- Python `str.strip()`: drop whitespace from both ends. -/
def pyStrip (s : String) : String :=
  String.mk (((s.data.dropWhile Char.isWhitespace).reverse.dropWhile Char.isWhitespace).reverse)

/-- Python `str.replace(a, b)` for one-character `a`, `b`: substitute each occurrence. -/
def replChar (a b : Char) (s : String) : String :=
  String.mk (s.data.map (fun c => if c = a then b else c))

/-- Python `str.replace(a, "")` for one-character `a`: delete each occurrence. -/
def delChar (a : Char) (s : String) : String :=
  String.mk (s.data.filter (fun c => ¬ c = a))

/-- The syntactic content of a parsed Python float literal: sign, value of the
integer-part digits, value of the fraction-part digits, number of
fraction-part digits. -/
structure PyF where
  neg : Bool
  ip : ℕ
  fp : ℕ
  fplen : ℕ
deriving DecidableEq, Repr

/-- Parse a string with Python `float`'s plain decimal grammar: optional sign,
digits with at most one point, at least one digit; `none` when the text does
not parse (the `except` branch of the callers). -/
def pyFloatParse (s : String) : Option PyF :=
  let cs := s.data
  let neg : Bool := cs.head? = some '-'
  let body : List Char :=
    match cs with
    | '+' :: t => t
    | '-' :: t => t
    | t => t
  let ip := body.takeWhile (fun c => ¬ c = '.')
  let fp := (body.dropWhile (fun c => ¬ c = '.')).drop 1
  if fp.any (fun c => c = '.') then none
  else if ¬ (ip.all Char.isDigit && fp.all Char.isDigit) then none
  else if ip.length + fp.length = 0 then none
  else some ⟨neg, natOfDigits ip, natOfDigits fp, fp.length⟩

/-- Rational value of a parsed float literal. -/
def PyF.val (p : PyF) : ℚ :=
  (if p.neg then -1 else 1) * ((p.ip : ℚ) + (p.fp : ℚ) / (10 : ℚ) ^ p.fplen)

/-- Python `float(s)`, returning `none` on parse failure. -/
def pyFloat (s : String) : Option ℚ :=
  (pyFloatParse s).map PyF.val

/-- The function `br_to_float` (the local helper inside `processar_dados`; the module-level
variant at lines 77–93 differs only in returning `np.nan` instead of `pd.NA`
and both map to `none` here): missing stays missing, numeric values pass
through `float(x)` unchanged, and text is stripped, rejected when empty, has
every `.` removed and every `,` replaced by `.`, and is then parsed by
`float`, with parse failure yielding missing. -/
def br_to_float : Cell → Option ℚ
  | Cell.null => none
  | Cell.num q => some q
  | Cell.str x =>
    let s := pyStrip x
    if s = "" then none
    else pyFloat (replChar ',' '.' (delChar '.' s))

/-- Python `str.upper()` after `str.strip()`, applied to an `astype(str)`
column: a missing value has already become the string "nan", so it maps to
"NAN" rather than to a missing value. -/
def upperStrip (o : Option String) : String :=
  match o with
  | none => (pyStrip "nan").toUpper
  | some s => (pyStrip s).toUpper

/-- Pandas `drop_duplicates` / first-occurrence deduplication keyed by `f`:
keeps the first row carrying each key, in original order. -/
def firstOccDedupBy {α κ : Type} [DecidableEq κ] (f : α → κ) (l : List α) : List α :=
  go [] l
where
  go (seen : List κ) : List α → List α
    | [] => []
    | a :: t => if f a ∈ seen then go seen t else a :: go (f a :: seen) t

/-- First-occurrence deduplication of a list of values. -/
def firstOccDedup {α : Type} [DecidableEq α] (l : List α) : List α :=
  firstOccDedupBy id l

/-- Boolean order on rationals. -/
def qLeB (a b : ℚ) : Bool := decide (a ≤ b)

/-- Boolean strict order on characters by code point. -/
def charLtB (a b : Char) : Bool := decide (a.toNat < b.toNat)

/-- Boolean strict lexicographic order on character lists. -/
def listLtB : List Char → List Char → Bool
  | [], [] => false
  | [], _ :: _ => true
  | _ :: _, [] => false
  | a :: as, b :: bs => if a = b then listLtB as bs else charLtB a b

/-- Boolean lexicographic order on strings (Python's string comparison:
code-point lexicographic). -/
def strLeB (a b : String) : Bool := a = b || listLtB a.data b.data

/-- Boolean order on optional values with `none` greatest: pandas sorts `NaN`
keys last. -/
def optLeB {α : Type} (le : α → α → Bool) : Option α → Option α → Bool
  | _, none => true
  | none, some _ => false
  | some a, some b => le a b

/-- Boolean order on cells: numbers, then strings, then missing last. Pandas
raises on comparing mixed numeric/text keys; the key columns compared in this
development are homogeneous, so the cross-type branch is an arbitrary
totalisation. -/
def Cell.leB : Cell → Cell → Bool
  | Cell.num a, Cell.num b => qLeB a b
  | Cell.num _, Cell.str _ => true
  | Cell.num _, Cell.null => true
  | Cell.str _, Cell.num _ => false
  | Cell.str a, Cell.str b => strLeB a b
  | Cell.str _, Cell.null => true
  | Cell.null, Cell.num _ => false
  | Cell.null, Cell.str _ => false
  | Cell.null, Cell.null => true

/-- One lexicographic step: compare by this component, tie-break by the rest. -/
def lexStep {α : Type} [DecidableEq α] (le : α → α → Bool) (a b : α) (rest : Bool) : Bool :=
  if a = b then rest else le a b

/-- The grouping key of the aggregation (`group_cols`, lines 166–174). -/
structure GKey where
  data_operacao : Option String
  conta_cliente : Option ℚ
  ativo : Option String
  fixing : Option String
  estrutura : Option String
  ref : Cell
  codigo_produto : Option String
deriving DecidableEq, Repr

/-- Lexicographic order on grouping keys, in `group_cols` column order, with
missing values last per level, as pandas `groupby(..., dropna=False)` sorts
its group keys. -/
def GKey.leB (x y : GKey) : Bool :=
  lexStep (optLeB strLeB) x.data_operacao y.data_operacao <|
  lexStep (optLeB qLeB) x.conta_cliente y.conta_cliente <|
  lexStep (optLeB strLeB) x.ativo y.ativo <|
  lexStep (optLeB strLeB) x.fixing y.fixing <|
  lexStep (optLeB strLeB) x.estrutura y.estrutura <|
  lexStep Cell.leB x.ref y.ref <|
  lexStep (optLeB strLeB) x.codigo_produto y.codigo_produto true

/-- The key order as a relation, for sorting. -/
def GKey.leProp (x y : GKey) : Prop := GKey.leB x y = true

instance : DecidableRel GKey.leProp := fun x y => instDecidableEqBool (GKey.leB x y) true

/-- One raw row of the Operations table, typed by how each column is used:
key columns and aggregated columns. `Ref` can be locale-formatted text, so it
stays an untyped cell; the barrier columns are only passed through a
first-non-null reduction, so they stay untyped cells as well. -/
structure OpRow where
  data_operacao : Option String
  conta_cliente : Option ℚ
  ativo : Option String
  fixing : Option String
  estrutura : Option String
  ref : Cell
  codigo_produto : Option String
  tipo_operacao : Option String
  tipo_opcao : Option String
  preco_exercicio : Option ℚ
  quantidade : Option ℚ
  barreira_knock_in : Cell
  barreira_knock_out : Cell
  direcao_barreira : Cell
  rebate : Cell
  knock_in_atingido : Cell
  bid_offer : Option ℚ
deriving DecidableEq, Repr

/-- The grouping key of a row. -/
def OpRow.key (r : OpRow) : GKey :=
  ⟨r.data_operacao, r.conta_cliente, r.ativo, r.fixing, r.estrutura, r.ref, r.codigo_produto⟩

/-- Order for sorting strings, as a relation. -/
def strLeProp (a b : String) : Prop := strLeB a b = true

instance : DecidableRel strLeProp := fun a b => instDecidableEqBool (strLeB a b) true

/-- Pandas `", ".join(sorted(set(x.dropna())))`: distinct non-null values,
sorted ascending, joined with ", ". -/
def joinSortedDistinct (xs : List (Option String)) : String :=
  String.intercalate ", " (List.insertionSort strLeProp (firstOccDedup (xs.filterMap id)))

/-- Pandas aggregation "min" on a numeric column: minimum of the non-null
values, null when all are null. -/
def aggMin (xs : List (Option ℚ)) : Option ℚ :=
  match xs.filterMap id with
  | [] => none
  | a :: t => some (t.foldl min a)

/-- Pandas aggregation "max" on a numeric column: maximum of the non-null
values, null when all are null. -/
def aggMax (xs : List (Option ℚ)) : Option ℚ :=
  match xs.filterMap id with
  | [] => none
  | a :: t => some (t.foldl max a)

/-- Pandas aggregation "sum" on a numeric column: sum of the non-null values,
0 when all are null (nulls count as 0). -/
def aggSum (xs : List (Option ℚ)) : ℚ :=
  (xs.filterMap id).sum

/-- The function `primeira_nao_nula` (lines 33–36): first non-null value of the column in
original row order, null when all are null. -/
def primeira_nao_nula (xs : List Cell) : Cell :=
  match xs.filter (fun c => ¬ c = Cell.null) with
  | [] => Cell.null
  | c :: _ => c

/-- One unified operation: the grouping key columns together with the reduced
columns of `agg_dict` (lines 176–190). -/
structure URow where
  key : GKey
  tipo_operacao : String
  tipo_opcao : String
  preco_exercicio : Option ℚ
  quantidade : Option ℚ
  barreira_knock_in : Cell
  barreira_knock_out : Cell
  direcao_barreira : Cell
  rebate : Cell
  knock_in_atingido : Cell
  bid_offer : ℚ
deriving DecidableEq, Repr

/-- The reductions of `agg_dict` applied to one group of legs. -/
def aggGroup (k : GKey) (legs : List OpRow) : URow where
  key := k
  tipo_operacao := joinSortedDistinct (legs.map OpRow.tipo_operacao)
  tipo_opcao := joinSortedDistinct (legs.map OpRow.tipo_opcao)
  preco_exercicio := aggMin (legs.map OpRow.preco_exercicio)
  quantidade := aggMax (legs.map OpRow.quantidade)
  barreira_knock_in := primeira_nao_nula (legs.map OpRow.barreira_knock_in)
  barreira_knock_out := primeira_nao_nula (legs.map OpRow.barreira_knock_out)
  direcao_barreira := primeira_nao_nula (legs.map OpRow.direcao_barreira)
  rebate := primeira_nao_nula (legs.map OpRow.rebate)
  knock_in_atingido := primeira_nao_nula (legs.map OpRow.knock_in_atingido)
  bid_offer := aggSum (legs.map OpRow.bid_offer)

/-- The distinct grouping keys in the order pandas `groupby` emits its groups:
sorted ascending by key (the default `sort=True`), with null components kept
(`dropna=False`). -/
def groupKeys (rows : List OpRow) : List GKey :=
  List.insertionSort GKey.leProp (firstOccDedup (rows.map OpRow.key))

/-- The legs of one group, in original row order. -/
def groupLegs (rows : List OpRow) (k : GKey) : List OpRow :=
  rows.filter (fun r => r.key = k)

/-- The grouped table `df_grouped` (lines 192–197): one unified row per
distinct grouping key, in pandas group order. -/
def agrupar (rows : List OpRow) : List URow :=
  (groupKeys rows).map (fun k => aggGroup k (groupLegs rows k))

/-- One row of the Advisors table (`df_assessores[["Conta", "Nome",
"Assessor"]]`), its account typed numeric as spreadsheet accounts are. -/
structure AdvRow where
  conta : Option ℚ
  nome : Cell
  assessor : Cell
deriving DecidableEq, Repr

/-- A unified operation after the advisor merge and the renames of lines
200–212: the left columns plus "Nome Cliente" and "Assessor". -/
structure MRow where
  u : URow
  nome_cliente : Cell
  assessor : Cell
deriving DecidableEq, Repr

/-- The left outer merge with the Advisors table on `Conta_Cliente = Conta`
(lines 200–205): every matching right row produces one output row, in right
order; a left row without a match is kept once with nulls. Pandas matches a
null key to a null key, which the option equality mirrors. -/
def mergeAssessores (ops : List URow) (adv : List AdvRow) : List MRow :=
  ops.flatMap (fun o =>
    match adv.filter (fun a => a.conta = o.key.conta_cliente) with
    | [] => [⟨o, Cell.null, Cell.null⟩]
    | ms => ms.map (fun a => ⟨o, a.nome, a.assessor⟩))

/-- A calendar date, day-first. -/
structure PDate where
  d : ℕ
  m : ℕ
  y : ℕ
deriving DecidableEq, Repr

/-- Digits of a slash-separated component. -/
def compNat (cs : List Char) : Option ℕ :=
  if cs ≠ [] ∧ cs.all Char.isDigit then some (natOfDigits cs) else none

/-- The function `norm_date` (lines 120–125): `pd.to_datetime(x, errors="coerce",
dayfirst=True)` reduced to a calendar date. The full pandas date grammar is
broad; this model covers the day-first slash form `dd/mm/yyyy` used by these
spreadsheets, and maps everything unparsable (and missing) to a null date. -/
def norm_date (o : Option String) : Option PDate :=
  match o with
  | none => none
  | some s =>
    let parts := (pyStrip s).data.splitOn '/'
    match parts with
    | [ds, ms, ys] =>
      match compNat ds, compNat ms, compNat ys with
      | some d, some m, some y =>
        if 1 ≤ d ∧ d ≤ 31 ∧ 1 ≤ m ∧ m ≤ 12 then some ⟨d, m, y⟩ else none
      | _, _, _ => none
    | _ => none

/-- A numeric option rendered back as the cell it is stored in, so that the
source's `.apply(br_to_float)` on an already-numeric column can be written
verbatim. -/
def optionNumCell (o : Option ℚ) : Cell :=
  match o with
  | none => Cell.null
  | some q => Cell.num q

/-- One merged row after the type normalisation of lines 218–225:
`Conta_Cliente` through `pd.to_numeric` (identity on a numeric column),
`Ativo` through `astype(str).str.strip().str.upper()`, `Fixing_norm` from
`norm_date`, and `Ref`, `Paga/Recebe`, `Quantidade`, `Preço Exercício`
through `br_to_float`. -/
structure NRow where
  data_operacao : Option String
  conta_cliente : Option ℚ
  ativo : String
  fixing : Option String
  fixing_norm : Option PDate
  estrutura : Option String
  ref : Option ℚ
  cod_produto : Option String
  tipo_operacao : String
  tipo_opcao : String
  preco_exercicio : Option ℚ
  quantidade : Option ℚ
  paga_recebe : Option ℚ
  nome_cliente : Cell
  assessor : Cell
deriving DecidableEq, Repr

/-- The normalisation of lines 218–225 applied to one merged row. -/
def normalizeRow (r : MRow) : NRow where
  data_operacao := r.u.key.data_operacao
  conta_cliente := r.u.key.conta_cliente
  ativo := upperStrip r.u.key.ativo
  fixing := r.u.key.fixing
  fixing_norm := norm_date r.u.key.fixing
  estrutura := r.u.key.estrutura
  ref := br_to_float r.u.key.ref
  cod_produto := r.u.key.codigo_produto
  tipo_operacao := r.u.tipo_operacao
  tipo_opcao := r.u.tipo_opcao
  preco_exercicio := br_to_float (optionNumCell r.u.preco_exercicio)
  quantidade := br_to_float (optionNumCell r.u.quantidade)
  paga_recebe := br_to_float (Cell.num r.u.bid_offer)
  nome_cliente := r.nome_cliente
  assessor := r.assessor

/-- One raw row of the Dashboard table. -/
structure DashRow where
  conta : Cell
  ativo : Option String
  data_fixing : Option String
  preco_abertura : Cell
  preco_mercado : Cell
deriving DecidableEq, Repr

/-- Pandas `pd.to_numeric(x, errors="coerce")` on a cell: numbers pass,
text is parsed in plain decimal notation, anything else becomes null. -/
def pdToNumeric : Cell → Option ℚ
  | Cell.null => none
  | Cell.num q => some q
  | Cell.str s =>
    let t := pyStrip s
    if t = "" then none else pyFloat t

/-- One Dashboard row after the normalisation of lines 228–232 and the
`dropna` on the three key columns: the key is fully non-null. -/
structure DashMin where
  conta : ℚ
  ativo : String
  fixing : PDate
  preco_abertura : Option ℚ
  preco_mercado : Option ℚ
deriving DecidableEq, Repr

/-- The key triple of a deduplicated Dashboard row. -/
def DashMin.keyTriple (d : DashMin) : ℚ × String × PDate :=
  (d.conta, d.ativo, d.fixing)

/-- The frame `df_dash_min` (lines 234–240): normalise the Dashboard columns, drop rows
with a null in any of the three key columns (`Ativo` from `astype(str)` is
never null), and deduplicate on the key triple keeping the first
occurrence. -/
def dashMin (dash : List DashRow) : List DashMin :=
  firstOccDedupBy DashMin.keyTriple
    (dash.filterMap (fun r =>
      match pdToNumeric r.conta, norm_date r.data_fixing with
      | some c, some f =>
        some ⟨c, upperStrip r.ativo, f, br_to_float r.preco_abertura,
          br_to_float r.preco_mercado⟩
      | _, _ => none))

/-- One row after the Dashboard merge of lines 242–247: the normalised left
columns plus "Preço Abertura" and "Preço Mercado". -/
structure FRow where
  n : NRow
  preco_abertura : Option ℚ
  preco_mercado : Option ℚ
deriving DecidableEq, Repr

/-- The left outer merge with the deduplicated Dashboard on
`(Conta_Cliente, Ativo, Fixing_norm)` (lines 242–247). A null left key never
matches because the right keys are all non-null. -/
def mergeDash (rows : List NRow) (dmin : List DashMin) : List FRow :=
  rows.flatMap (fun n =>
    match dmin.filter (fun d =>
        n.conta_cliente = some d.conta ∧ n.ativo = d.ativo ∧
        n.fixing_norm = some d.fixing) with
    | [] => [⟨n, none, none⟩]
    | ms => ms.map (fun d => ⟨n, d.preco_abertura, d.preco_mercado⟩))

/-- A float value as pandas column arithmetic produces it: `NaN` (the null of
a float column), a finite value, or a signed infinity. Finite arithmetic is
modelled exactly on `ℚ`; the infinities arise only from division by zero.
Python's negative zero is not distinguished from zero, which can flip the
sign of an infinity produced by division by zero but never its
non-nullness. -/
inductive FVal where
  | nan
  | num (q : ℚ)
  | inf
  | ninf
deriving DecidableEq, Repr

/-- A nullable number as the float column cell holding it. -/
def FVal.ofOpt (o : Option ℚ) : FVal :=
  match o with
  | none => FVal.nan
  | some q => FVal.num q

/-- Pandas `notnull` on a float cell: everything but `NaN`, infinities
included. -/
def FVal.notnull : FVal → Bool
  | FVal.nan => false
  | _ => true

/-- IEEE-style addition: `NaN` propagates, opposite infinities give `NaN`. -/
def FVal.add : FVal → FVal → FVal
  | FVal.nan, _ => FVal.nan
  | _, FVal.nan => FVal.nan
  | FVal.inf, FVal.ninf => FVal.nan
  | FVal.ninf, FVal.inf => FVal.nan
  | FVal.inf, _ => FVal.inf
  | _, FVal.inf => FVal.inf
  | FVal.ninf, _ => FVal.ninf
  | _, FVal.ninf => FVal.ninf
  | FVal.num a, FVal.num b => FVal.num (a + b)

/-- IEEE-style negation. -/
def FVal.neg : FVal → FVal
  | FVal.nan => FVal.nan
  | FVal.num q => FVal.num (-q)
  | FVal.inf => FVal.ninf
  | FVal.ninf => FVal.inf

/-- IEEE-style subtraction. -/
def FVal.sub (a b : FVal) : FVal := FVal.add a (FVal.neg b)

/-- IEEE-style multiplication: `NaN` propagates, infinity times zero is
`NaN`, otherwise signs multiply. -/
def FVal.mul : FVal → FVal → FVal
  | FVal.nan, _ => FVal.nan
  | _, FVal.nan => FVal.nan
  | FVal.num a, FVal.num b => FVal.num (a * b)
  | FVal.inf, FVal.num b => if 0 < b then FVal.inf else if b < 0 then FVal.ninf else FVal.nan
  | FVal.num a, FVal.inf => if 0 < a then FVal.inf else if a < 0 then FVal.ninf else FVal.nan
  | FVal.ninf, FVal.num b => if 0 < b then FVal.ninf else if b < 0 then FVal.inf else FVal.nan
  | FVal.num a, FVal.ninf => if 0 < a then FVal.ninf else if a < 0 then FVal.inf else FVal.nan
  | FVal.inf, FVal.inf => FVal.inf
  | FVal.inf, FVal.ninf => FVal.ninf
  | FVal.ninf, FVal.inf => FVal.ninf
  | FVal.ninf, FVal.ninf => FVal.inf

/-- IEEE-style division: `NaN` propagates, zero over zero is `NaN`, a
non-zero value over zero is a signed infinity (sign as for an unsigned
zero denominator), infinity over infinity is `NaN`, finite over infinity is
zero. -/
def FVal.div : FVal → FVal → FVal
  | FVal.nan, _ => FVal.nan
  | _, FVal.nan => FVal.nan
  | FVal.num a, FVal.num b =>
    if b = 0 then
      if a = 0 then FVal.nan else if 0 < a then FVal.inf else FVal.ninf
    else FVal.num (a / b)
  | FVal.inf, FVal.num b => if b < 0 then FVal.ninf else FVal.inf
  | FVal.ninf, FVal.num b => if b < 0 then FVal.inf else FVal.ninf
  | FVal.num _, FVal.inf => FVal.num 0
  | FVal.num _, FVal.ninf => FVal.num 0
  | _, FVal.inf => FVal.nan
  | _, FVal.ninf => FVal.nan

instance : Add FVal := ⟨FVal.add⟩

instance : Sub FVal := ⟨FVal.sub⟩

instance : Mul FVal := ⟨FVal.mul⟩

instance : Div FVal := ⟨FVal.div⟩

/-- "Resultado Prévio" (line 253): `(Preço Mercado - Preço Abertura) *
Quantidade`. -/
def resultadoPrevio (f : FRow) : FVal :=
  (FVal.ofOpt f.preco_mercado - FVal.ofOpt f.preco_abertura) * FVal.ofOpt f.n.quantidade

/-- "Bid Total" (line 256): `Paga/Recebe * Quantidade`. -/
def bidTotal (f : FRow) : FVal :=
  FVal.ofOpt f.n.paga_recebe * FVal.ofOpt f.n.quantidade

/-- "Resultado Saindo Hoje" (line 259): `Resultado Prévio + Bid Total`. -/
def resultadoSaindoHoje (f : FRow) : FVal :=
  resultadoPrevio f + bidTotal f

/-- "Base (Abertura)" (line 263): `Quantidade * Preço Abertura`. -/
def baseAbertura (f : FRow) : FVal :=
  FVal.ofOpt f.n.quantidade * FVal.ofOpt f.preco_abertura

/-- "% Saindo Hoje" (line 264): `((Base + Resultado Saindo Hoje) / Base - 1)
* 100`. -/
def pctSaindoHoje (f : FRow) : FVal :=
  ((baseAbertura f + resultadoSaindoHoje f) / baseAbertura f - FVal.num 1) * FVal.num 100

/-- "Cliente_Paga_Recebe" (lines 266–269): "PAGA" when the value is non-null
and negative, otherwise "RECEBE" when non-null and positive, otherwise
"NEUTRO". -/
def clientePagaRecebe (x : Option ℚ) : String :=
  match x with
  | some q => if q < 0 then "PAGA" else if 0 < q then "RECEBE" else "NEUTRO"
  | none => "NEUTRO"

/-- A decimal digit as a character. -/
def digitChar : ℕ → Char
  | 0 => '0'
  | 1 => '1'
  | 2 => '2'
  | 3 => '3'
  | 4 => '4'
  | 5 => '5'
  | 6 => '6'
  | 7 => '7'
  | 8 => '8'
  | 9 => '9'
  | _ => '*'

/-- Decimal digits of a natural number, most significant first, with fuel. -/
def natDigitsAux : ℕ → ℕ → List Char
  | 0, _ => []
  | fuel + 1, n =>
    if n < 10 then [digitChar n]
    else natDigitsAux fuel (n / 10) ++ [digitChar (n % 10)]

/-- Decimal digits of a natural number, most significant first. -/
def natDigits (n : ℕ) : List Char := natDigitsAux (n + 1) n

/-- Two-digit zero-padded decimal rendering of a number below 100. -/
def pad2 (n : ℕ) : List Char :=
  if n < 10 then '0' :: natDigits n else natDigits n

/-- Insert a thousands separator after every group of three digits, counted
from the right. -/
def group3Aux (sep : Char) : List Char → List Char
  | a :: b :: c :: d :: t => a :: b :: c :: sep :: group3Aux sep (d :: t)
  | l => l

/-- A digit list with a thousands separator every three digits from the
right. -/
def group3 (sep : Char) (ds : List Char) : List Char :=
  (group3Aux sep ds.reverse).reverse

/-- Round a rational to the nearest integer, ties to even (the rounding of
Python float formatting). -/
def roundHalfEven (q : ℚ) : ℤ :=
  let f := ⌊q⌋
  let r := q - f
  if r < 1 / 2 then f
  else if 1 / 2 < r then f + 1
  else if f % 2 = 0 then f else f + 1

/-- Python `f"{q:,.2f}"` on a finite value: sign, comma-grouped integer part,
point, two fraction digits. Python renders a negative zero float with a
leading minus; an unsigned zero of `ℚ` renders without one, which no theorem
below exercises. -/
def usFmt2 (q : ℚ) : List Char :=
  let a : ℕ := (roundHalfEven (q * 100)).natAbs
  (if q < 0 then ['-'] else []) ++ group3 ',' (natDigits (a / 100)) ++ '.' :: pad2 (a % 100)

/-- Python `f"{q:.2f}"` on a finite value: as `usFmt2` but ungrouped. -/
def usFmt2ng (q : ℚ) : List Char :=
  let a : ℕ := (roundHalfEven (q * 100)).natAbs
  (if q < 0 then ['-'] else []) ++ natDigits (a / 100) ++ '.' :: pad2 (a % 100)

/-- Python `f"{x:,.2f}"` on any non-`NaN` float cell. -/
def pyFmtComma2 : FVal → List Char
  | FVal.nan => ['n', 'a', 'n']
  | FVal.num q => usFmt2 q
  | FVal.inf => ['i', 'n', 'f']
  | FVal.ninf => ['-', 'i', 'n', 'f']

/-- Python `f"{x:.2f}"` on any non-`NaN` float cell. -/
def pyFmt2 : FVal → List Char
  | FVal.nan => ['n', 'a', 'n']
  | FVal.num q => usFmt2ng q
  | FVal.inf => ['i', 'n', 'f']
  | FVal.ninf => ['-', 'i', 'n', 'f']

/-- The function `fmt_rs` (lines 274–275): `f"R$ {x:,.2f}".replace(",", "X").replace(".",
",").replace("X", ".")` when the value is non-null, the empty string
otherwise. -/
def fmt_rs (x : FVal) : String :=
  if x.notnull then
    replChar 'X' '.' (replChar '.' ',' (replChar ',' 'X'
      (String.mk ("R$ ".data ++ pyFmtComma2 x))))
  else ""

/-- The function `fmt_pct` (lines 277–278): `f"{x:.2f}%".replace(".", ",")` when the value
is non-null, the empty string otherwise. -/
def fmt_pct (x : FVal) : String :=
  if x.notnull then replChar '.' ',' (String.mk (pyFmt2 x ++ ['%']))
  else ""

/-- Modelled from the spec (§4.5), for comparison with `fmt_rs`: the value
with "." as thousands separator and "," as decimal separator, two decimal
places, minus sign first. -/
def brNumber (q : ℚ) : String :=
  let a : ℕ := (roundHalfEven (q * 100)).natAbs
  String.mk
    ((if q < 0 then ['-'] else []) ++ group3 '.' (natDigits (a / 100)) ++ ',' :: pad2 (a % 100))

/-- Modelled from the spec (§4.5), for comparison with `fmt_pct`: the value
to two decimals with "." replaced by ",", followed by "%". -/
def brPct (q : ℚ) : String :=
  let a : ℕ := (roundHalfEven (q * 100)).natAbs
  String.mk
    ((if q < 0 then ['-'] else []) ++ natDigits (a / 100) ++ ',' :: pad2 (a % 100) ++ ['%'])

/-- One row of the final table, in the `colunas_saida` column order
(lines 286–309; all nineteen listed columns exist, so none is filtered
out). -/
structure OutRow where
  data_operacao : Option String
  conta_cliente : Option ℚ
  assessor : Cell
  nome_cliente : Cell
  ativo : String
  preco_exercicio : Option ℚ
  quantidade : Option ℚ
  fixing : Option String
  estrutura : Option String
  ref : Option ℚ
  paga_recebe : Option ℚ
  cliente_paga_recebe : String
  preco_abertura : Option ℚ
  preco_mercado : Option ℚ
  resultado_previo : String
  bid_total : String
  resultado_saindo_hoje : String
  pct_saindo_hoje : String
  cod_produto : Option String
deriving DecidableEq, Repr

/-- The metric, classification and formatting columns of lines 253–283
assembled into one output row. -/
def outOfF (f : FRow) : OutRow where
  data_operacao := f.n.data_operacao
  conta_cliente := f.n.conta_cliente
  assessor := f.n.assessor
  nome_cliente := f.n.nome_cliente
  ativo := f.n.ativo
  preco_exercicio := f.n.preco_exercicio
  quantidade := f.n.quantidade
  fixing := f.n.fixing
  estrutura := f.n.estrutura
  ref := f.n.ref
  paga_recebe := f.n.paga_recebe
  cliente_paga_recebe := clientePagaRecebe f.n.paga_recebe
  preco_abertura := f.preco_abertura
  preco_mercado := f.preco_mercado
  resultado_previo := fmt_rs (resultadoPrevio f)
  bid_total := fmt_rs (bidTotal f)
  resultado_saindo_hoje := fmt_rs (resultadoSaindoHoje f)
  pct_saindo_hoje := fmt_pct (pctSaindoHoje f)
  cod_produto := f.n.cod_produto

/-- The whole row pipeline of `processar_dados` after validation: group,
merge with Advisors, normalise, merge with the deduplicated Dashboard,
compute and format. -/
def pipelineRows (ass : List AdvRow) (ops : List OpRow) (dash : List DashRow) : List OutRow :=
  (mergeDash ((mergeAssessores (agrupar ops) ass).map normalizeRow) (dashMin dash)).map outOfF

/-- An input table: its column-name set and its typed rows. -/
structure PTable (ρ : Type) where
  cols : List String
  rows : List ρ
deriving DecidableEq, Repr

/-- The required Advisors columns (line 128). -/
def cols_assessores_obrig : List String := ["Conta", "Nome", "Assessor"]

/-- The required Operations columns (lines 129–147). -/
def cols_ops_obrig : List String :=
  ["Data_Operação", "Conta_Cliente", "Tipo Operação", "Tipo Opção", "Ativo",
   "Preço Exercício", "Quantidade", "Barreira Knock In", "Barreira Knock Out",
   "Direção da Barreira", "Rebate", "Fixing", "KnockInAtingido", "Estrutura",
   "Ref", "Bid(+)/Offer(-)", "Código do Produto"]

/-- The required Dashboard columns (line 148). -/
def cols_dash_obrig : List String :=
  ["Conta", "Ativo", "Data de Fixing", "Preço de Abertura", "Preço de Mercado"]

/-- The set difference `required - present` (lines 150–152), as the required
columns absent from the table. -/
def faltando (req cols : List String) : List String :=
  req.filter (fun c => ¬ c ∈ cols)

/-- The `ValueError`s of lines 154–159, each carrying the missing column
names it reports. -/
inductive PipeErr where
  | schemaAssessores (missing : List String)
  | schemaOps (missing : List String)
  | schemaDash (missing : List String)
deriving DecidableEq, Repr

/-- The function `processar_dados` (lines 97–309): validate the three inputs in order,
halting on the first missing-column error before any further computation;
otherwise run the pipeline. An exception is `Except.error`: nothing of the
output is produced. -/
def processar_dados (ass : PTable AdvRow) (ops : PTable OpRow) (dash : PTable DashRow) :
    Except PipeErr (List OutRow) :=
  let fAss := faltando cols_assessores_obrig ass.cols
  let fOps := faltando cols_ops_obrig ops.cols
  let fDash := faltando cols_dash_obrig dash.cols
  if ¬ fAss = [] then Except.error (PipeErr.schemaAssessores fAss)
  else if ¬ fOps = [] then Except.error (PipeErr.schemaOps fOps)
  else if ¬ fDash = [] then Except.error (PipeErr.schemaDash fDash)
  else Except.ok (pipelineRows ass.rows ops.rows dash.rows)

/-- A pandas object held in the heap during one `processar_dados` run: one of
the three input frames, or one of the frames the function builds. -/
inductive Frame where
  | advF (t : PTable AdvRow)
  | opsF (t : PTable OpRow)
  | dashF (t : PTable DashRow)
  | dashNF (rows : List DashMin)
  | groupedF (rows : List URow)
  | mergedF (rows : List MRow)
  | normF (rows : List NRow)
  | dashMinF (rows : List DashMin)
  | frowsF (rows : List FRow)
  | outF (rows : List OutRow)
deriving DecidableEq, Repr

/-- The heap: references to frames. References at or above the allocation
bound are unused. -/
def Store : Type := ℕ → Option Frame

/-- Write one reference. -/
def Store.set (σ : Store) (r : ℕ) (f : Frame) : Store :=
  fun n => if n = r then some f else σ n

/-- Read an Advisors frame, empty when the reference does not hold one (a
branch a well-typed call never takes). -/
def asAdv : Option Frame → PTable AdvRow
  | some (Frame.advF t) => t
  | _ => ⟨[], []⟩

/-- Read an Operations frame, empty when the reference does not hold one. -/
def asOps : Option Frame → PTable OpRow
  | some (Frame.opsF t) => t
  | _ => ⟨[], []⟩

/-- Read a Dashboard frame, empty when the reference does not hold one. -/
def asDash : Option Frame → PTable DashRow
  | some (Frame.dashF t) => t
  | _ => ⟨[], []⟩

/-- The function `processar_dados` as a heap computation, mutation made explicit. The
caller holds the three input references; `next` is the allocation bound (all
live references lie below it). Validation happens first (lines 127–159) and
raises before anything is allocated. The three `.copy()` calls of lines
161–163 allocate fresh objects; every later in-place column write of the
source (lines 218–232, 253–283, consecutive writes to one frame collapsed
into one store write of the resulting frame) targets one of the fresh
references, never an input. New frames built by `groupby`/`merge`/`rename`/
column selection are fresh allocations. -/
def processar_dados_st (σ : Store) (next rA rO rD : ℕ) :
    Store × Except PipeErr (List OutRow) :=
  let ta := asAdv (σ rA)
  let tops := asOps (σ rO)
  let td := asDash (σ rD)
  let fAss := faltando cols_assessores_obrig ta.cols
  let fOps := faltando cols_ops_obrig tops.cols
  let fDash := faltando cols_dash_obrig td.cols
  if ¬ fAss = [] then (σ, Except.error (PipeErr.schemaAssessores fAss))
  else if ¬ fOps = [] then (σ, Except.error (PipeErr.schemaOps fOps))
  else if ¬ fDash = [] then (σ, Except.error (PipeErr.schemaDash fDash))
  else
    let σ₁ := σ.set next (Frame.opsF tops)
    let σ₂ := σ₁.set (next + 1) (Frame.advF ta)
    let σ₃ := σ₂.set (next + 2) (Frame.dashF td)
    let grouped := agrupar tops.rows
    let σ₄ := σ₃.set (next + 3) (Frame.groupedF grouped)
    let merged := mergeAssessores grouped ta.rows
    let σ₅ := σ₄.set (next + 4) (Frame.mergedF merged)
    let normed := merged.map normalizeRow
    let σ₆ := σ₅.set (next + 4) (Frame.normF normed)
    let σ₇ := σ₆.set (next + 2) (Frame.dashNF (dashMin td.rows))
    let dmin := dashMin td.rows
    let σ₈ := σ₇.set (next + 5) (Frame.dashMinF dmin)
    let frows := mergeDash normed dmin
    let σ₉ := σ₈.set (next + 6) (Frame.frowsF frows)
    let out := frows.map outOfF
    let σₐ := σ₉.set (next + 6) (Frame.outF out)
    let σᵦ := σₐ.set (next + 7) (Frame.outF out)
    (σᵦ, Except.ok out)

/-- Sample leg whose key has structure "B", listed first in the sample
input. -/
def opLegB : OpRow where
  data_operacao := some "2024-01-10"
  conta_cliente := some 100
  ativo := some "PETR4"
  fixing := some "15/01/2024"
  estrutura := some "B"
  ref := Cell.num 10
  codigo_produto := some "P1"
  tipo_operacao := some "C"
  tipo_opcao := some "CALL"
  preco_exercicio := some 5
  quantidade := some 100
  barreira_knock_in := Cell.null
  barreira_knock_out := Cell.null
  direcao_barreira := Cell.null
  rebate := Cell.null
  knock_in_atingido := Cell.null
  bid_offer := some 2

/-- Sample leg whose key has structure "A", listed second in the sample
input. -/
def opLegA : OpRow := { opLegB with estrutura := some "A" }

/-- Sample second leg sharing the key of the first, with operation type "V",
quantity 150 and adjustment -3. -/
def opLegV : OpRow :=
  { opLegB with bid_offer := some (-3), quantidade := some 150, tipo_operacao := some "V" }

/-- Sample unified operation for account 100. -/
def uSample : URow where
  key := opLegB.key
  tipo_operacao := "C"
  tipo_opcao := "CALL"
  preco_exercicio := some 5
  quantidade := some 100
  barreira_knock_in := Cell.null
  barreira_knock_out := Cell.null
  direcao_barreira := Cell.null
  rebate := Cell.null
  knock_in_atingido := Cell.null
  bid_offer := 2

/-- First advisor record for account 100. -/
def advN1 : AdvRow := ⟨some 100, Cell.str "N1", Cell.str "A1"⟩

/-- Second advisor record for the same account 100. -/
def advN2 : AdvRow := ⟨some 100, Cell.str "N2", Cell.str "A2"⟩

/-- Sample normalised row with quantity 100, opening price 0, market price
10 and zero adjustment: its base is zero while its leaving-today result is
1000. -/
def nZeroBase : NRow where
  data_operacao := some "2024-01-10"
  conta_cliente := some 100
  ativo := "PETR4"
  fixing := some "15/01/2024"
  fixing_norm := some ⟨15, 1, 2024⟩
  estrutura := some "B"
  ref := some 10
  cod_produto := some "P1"
  tipo_operacao := "C"
  tipo_opcao := "CALL"
  preco_exercicio := some 5
  quantidade := some 100
  paga_recebe := some 0
  nome_cliente := Cell.str "N1"
  assessor := Cell.str "A1"

/-- The zero-base sample row after a Dashboard merge giving opening price 0
and market price 10. -/
def fZeroBase : FRow := ⟨nZeroBase, some 0, some 10⟩

/-- A zero-quantity variant of the sample row. -/
def fZeroQty : FRow := ⟨{ nZeroBase with quantidade := some 0 }, some 0, some 10⟩

/-- Sample Advisors table missing the "Assessor" column. -/
def tAssBad : PTable AdvRow := ⟨["Conta", "Nome"], []⟩

/-- Sample well-formed empty Advisors table. -/
def tAssOk : PTable AdvRow := ⟨cols_assessores_obrig, []⟩

/-- Sample well-formed empty Operations table. -/
def tOpsOk : PTable OpRow := ⟨cols_ops_obrig, []⟩

/-- Sample well-formed empty Dashboard table. -/
def tDashOk : PTable DashRow := ⟨cols_dash_obrig, []⟩

/-- The net effect of the three-replace chain of `fmt_rs` on one character:
comma and period exchanged, everything else fixed. -/
def swapSep (c : Char) : Char :=
  if c = ',' then '.' else if c = '.' then ',' else c

/-- A null-quantity variant of the sample row: its base is null. -/
def fNanBase : FRow := ⟨{ nZeroBase with quantidade := none }, some 0, some 10⟩

/-- Sample Operations table missing its "Ref" column. -/
def tOpsBad : PTable OpRow := ⟨cols_ops_obrig.filter (fun c => ¬ c = "Ref"), []⟩

/-- Sample Dashboard table missing its "Conta" column. -/
def tDashBad : PTable DashRow := ⟨["Ativo", "Data de Fixing", "Preço de Abertura", "Preço de Mercado"], []⟩

/-- Claim C1, counterexample. The claim says that when both comma and period
appear the rightmost separator is the decimal point, so "1,234.56" coerces to
1234.56. The code instead removes every period and then turns the comma into
a period, so "1,234.56" coerces to 1.23456, not 1234.56. -/
theorem C1_brToFloat_counterexample :
    br_to_float (Cell.str "1,234.56") ≠ some (1234.56 : ℚ) ∧
    br_to_float (Cell.str "1,234.56") = some (1.23456 : ℚ) := by
  have h0 : ¬ (pyStrip "1,234.56" = "") := by decide
  have h : pyFloatParse (replChar ',' '.' (delChar '.' (pyStrip "1,234.56"))) =
      some ⟨false, 1, 23456, 5⟩ := by decide
  constructor
  · intro hc
    rw [br_to_float] at hc
    simp only [pyFloat, h0, if_false, h, Option.map] at hc
    rw [Option.some_inj] at hc
    norm_num [PyF.val] at hc
  · rw [br_to_float]
    simp only [pyFloat, h0, if_false, h, Option.map]
    rw [Option.some_inj]
    norm_num [PyF.val]

/-- Claim C1, amended. `br_to_float` returns an already-numeric value
unchanged; for text it removes every period and then treats every comma as a
period, so the comma is always the decimal separator: "1.234,56" coerces to
1234.56, but "1,234.56" coerces to 1.23456 (the period is lost as a
thousands separator even when it is the rightmost separator); a lone comma is
the decimal point ("20,67" coerces to 20.67); unparsable text ("abc") and
missing values coerce to null rather than raising. -/
theorem C1_brToFloat_amended :
    (∀ q : ℚ, br_to_float (Cell.num q) = some q) ∧
    br_to_float (Cell.str "1.234,56") = some (1234.56 : ℚ) ∧
    br_to_float (Cell.str "1,234.56") = some (1.23456 : ℚ) ∧
    br_to_float (Cell.str "20,67") = some (20.67 : ℚ) ∧
    br_to_float (Cell.str "abc") = none ∧
    br_to_float Cell.null = none := by
  refine ⟨fun q => rfl, ?_, ?_, ?_, ?_, rfl⟩
  · have h0 : ¬ (pyStrip "1.234,56" = "") := by decide
    have h : pyFloatParse (replChar ',' '.' (delChar '.' (pyStrip "1.234,56"))) =
        some ⟨false, 1234, 56, 2⟩ := by decide
    rw [br_to_float]
    simp only [pyFloat, h0, if_false, h, Option.map]
    rw [Option.some_inj]
    norm_num [PyF.val]
  · have h0 : ¬ (pyStrip "1,234.56" = "") := by decide
    have h : pyFloatParse (replChar ',' '.' (delChar '.' (pyStrip "1,234.56"))) =
        some ⟨false, 1, 23456, 5⟩ := by decide
    rw [br_to_float]
    simp only [pyFloat, h0, if_false, h, Option.map]
    rw [Option.some_inj]
    norm_num [PyF.val]
  · have h0 : ¬ (pyStrip "20,67" = "") := by decide
    have h : pyFloatParse (replChar ',' '.' (delChar '.' (pyStrip "20,67"))) =
        some ⟨false, 20, 67, 2⟩ := by decide
    rw [br_to_float]
    simp only [pyFloat, h0, if_false, h, Option.map]
    rw [Option.some_inj]
    norm_num [PyF.val]
  · have h0 : ¬ (pyStrip "abc" = "") := by decide
    have h : pyFloatParse (replChar ',' '.' (delChar '.' (pyStrip "abc"))) = none := by decide
    rw [br_to_float]
    simp only [pyFloat, h0, if_false, h, Option.map]

theorem fodBy_go_mem {α : Type} (seen : List α) (l : List α) [DecidableEq α] (x : α) :
    x ∈ firstOccDedupBy.go id seen l ↔ (x ∈ l ∧ ¬ x ∈ seen) := by
  induction l generalizing seen with
  | nil => simp [firstOccDedupBy.go]
  | cons a t ih =>
    by_cases ha : (a : α) ∈ seen
    · simp only [firstOccDedupBy.go, id, if_pos ha, ih, List.mem_cons]
      constructor
      · rintro ⟨hx, hs⟩
        exact ⟨Or.inr hx, hs⟩
      · rintro ⟨hx | hx, hs⟩
        · exact absurd (hx ▸ ha) hs
        · exact ⟨hx, hs⟩
    · simp only [firstOccDedupBy.go, id, if_neg ha, List.mem_cons, ih]
      constructor
      · rintro (rfl | ⟨hx, hs⟩)
        · exact ⟨Or.inl rfl, ha⟩
        · refine ⟨Or.inr hx, fun hc => hs (by simp [List.mem_cons, hc])⟩
      · rintro ⟨rfl | hx, hs⟩
        · exact Or.inl rfl
        · by_cases hxa : x = a
          · exact Or.inl hxa
          · exact Or.inr ⟨hx, by simp [List.mem_cons, hxa, hs]⟩

theorem firstOccDedup_mem {α : Type} [DecidableEq α] (l : List α) (x : α) :
    x ∈ firstOccDedup l ↔ x ∈ l := by
  simp [firstOccDedup, firstOccDedupBy, fodBy_go_mem]

theorem fodBy_go_keys_nodup {α κ : Type} [DecidableEq κ] (f : α → κ) (seen : List κ)
    (l : List α) :
    ((firstOccDedupBy.go f seen l).map f).Nodup ∧
      ∀ k ∈ (firstOccDedupBy.go f seen l).map f, ¬ k ∈ seen := by
  induction l generalizing seen with
  | nil => simp [firstOccDedupBy.go]
  | cons a t ih =>
    by_cases ha : f a ∈ seen
    · simpa [firstOccDedupBy.go, if_pos ha] using ih seen
    · have ih2 := ih (f a :: seen)
      simp only [firstOccDedupBy.go, if_neg ha, List.map_cons, List.nodup_cons,
        List.mem_cons] at *
      refine ⟨⟨fun hmem => ?_, ih2.1⟩, fun k hk => ?_⟩
      · exact (ih2.2 _ hmem) (Or.inl rfl)
      · rcases hk with rfl | hk
        · exact ha
        · intro hs
          exact (ih2.2 _ hk) (Or.inr hs)

theorem fodBy_keys_nodup {α κ : Type} [DecidableEq κ] (f : α → κ) (l : List α) :
    ((firstOccDedupBy f l).map f).Nodup :=
  (fodBy_go_keys_nodup f [] l).1

theorem firstOccDedup_nodup {α : Type} [DecidableEq α] (l : List α) :
    (firstOccDedup l).Nodup := by
  have h := fodBy_keys_nodup (id : α → α) l
  simpa [firstOccDedup] using h

theorem groupKeys_perm (rows : List OpRow) :
    (groupKeys rows).Perm (firstOccDedup (rows.map OpRow.key)) :=
  List.perm_insertionSort _ _

theorem groupKeys_mem (rows : List OpRow) (k : GKey) :
    k ∈ groupKeys rows ↔ k ∈ rows.map OpRow.key := by
  rw [(groupKeys_perm rows).mem_iff, firstOccDedup_mem]

theorem groupKeys_nodup (rows : List OpRow) : (groupKeys rows).Nodup :=
  (groupKeys_perm rows).nodup_iff.mpr (firstOccDedup_nodup _)

theorem aggGroup_key (k : GKey) (legs : List OpRow) : (aggGroup k legs).key = k := rfl

theorem agrupar_map_key (rows : List OpRow) :
    (agrupar rows).map URow.key = groupKeys rows := by
  simp [agrupar, List.map_map, Function.comp_def, aggGroup_key]

theorem groupKeys_length (rows : List OpRow) :
    (groupKeys rows).length = (rows.map OpRow.key).toFinset.card := by
  rw [(groupKeys_perm rows).length_eq]
  have hnd := firstOccDedup_nodup (rows.map OpRow.key)
  have hts : (firstOccDedup (rows.map OpRow.key)).toFinset = (rows.map OpRow.key).toFinset := by
    ext k
    simp [List.mem_toFinset, firstOccDedup_mem]
  rw [← hts, List.toFinset_card_of_nodup hnd]

/-- Claim C3. Aggregation groups the Operations rows by the 7-column key with
null key components kept as ordinary grouping values (`dropna=False`), and
produces exactly one output row per distinct key: the output length equals
the number of distinct keys, the output keys are exactly the keys occurring
in the input (null components included), and no key appears twice. -/
theorem C3_agrupar_one_row_per_key (rows : List OpRow) :
    (agrupar rows).length = (rows.map OpRow.key).toFinset.card ∧
    (∀ k : GKey, (∃ u ∈ agrupar rows, u.key = k) ↔ k ∈ rows.map OpRow.key) ∧
    ((agrupar rows).map URow.key).Nodup := by
  refine ⟨?_, fun k => ?_, ?_⟩
  · have h := congrArg List.length (agrupar_map_key rows)
    simpa [groupKeys_length rows] using h
  · rw [← groupKeys_mem rows k, ← agrupar_map_key rows]
    simp [List.mem_map]
  · rw [agrupar_map_key rows]
    exact groupKeys_nodup rows

/-- Concrete instance of claim C3: two legs sharing one key and a third leg
with a key that differs only in a null component produce two output rows. -/
theorem C3_agrupar_one_row_per_key_witness :
    ∃ rows : List OpRow,
      (agrupar rows).length = (rows.map OpRow.key).toFinset.card ∧
      (agrupar rows).length = 2 := by
  classical
  refine ⟨[⟨some "d", some 1, some "A", none, some "E", Cell.null, some "P",
    some "C", none, none, some 10, Cell.null, Cell.null, Cell.null, Cell.null, Cell.null,
    some 1⟩,
    ⟨some "d", some 1, some "A", none, some "E", Cell.null, some "P",
    some "V", none, none, some 20, Cell.null, Cell.null, Cell.null, Cell.null, Cell.null,
    some 2⟩,
    ⟨some "d", some 1, none, none, some "E", Cell.null, some "P",
    some "C", none, none, some 10, Cell.null, Cell.null, Cell.null, Cell.null, Cell.null,
    some 1⟩], (C3_agrupar_one_row_per_key _).1, ?_⟩
  decide

theorem charToNat_inj {a b : Char} (h : a.toNat = b.toNat) : a = b := by
  have hv : a.val = b.val := by
    rcases a with ⟨⟨av⟩, ha⟩
    rcases b with ⟨⟨bv⟩, hb⟩
    simp only [Char.toNat, UInt32.toNat] at h
    exact congrArg UInt32.mk (BitVec.eq_of_toNat_eq h)
  exact Char.eq_of_val_eq hv

theorem charLtB_iff {a b : Char} : charLtB a b = true ↔ a.toNat < b.toNat := by
  simp [charLtB]

theorem listLtB_irrefl (l : List Char) : listLtB l l = false := by
  induction l with
  | nil => rfl
  | cons a t ih => simp [listLtB, ih]

theorem listLtB_trans :
    ∀ {a b c : List Char}, listLtB a b = true → listLtB b c = true → listLtB a c = true := by
  intro a
  induction a with
  | nil =>
    intro b c h₁ h₂
    cases b with
    | nil => simp [listLtB] at h₁
    | cons y bs =>
      cases c with
      | nil => simp [listLtB] at h₂
      | cons z cs => simp [listLtB]
  | cons x as ih =>
    intro b c h₁ h₂
    cases b with
    | nil => simp [listLtB] at h₁
    | cons y bs =>
      cases c with
      | nil => simp [listLtB] at h₂
      | cons z cs =>
        simp only [listLtB] at h₁ h₂
        simp only [listLtB]
        by_cases hxy : x = y
        · subst hxy
          simp only [if_pos rfl] at h₁
          by_cases hyz : x = z
          · subst hyz
            simp only [if_pos rfl] at h₂
            simp only [if_pos rfl]
            exact ih h₁ h₂
          · simp only [if_neg hyz] at h₂
            simp only [if_neg hyz]
            exact h₂
        · simp only [if_neg hxy] at h₁
          by_cases hyz : y = z
          · subst hyz
            simp only [if_neg hxy]
            exact h₁
          · simp only [if_neg hyz] at h₂
            have hxz : x.toNat < z.toNat :=
              lt_trans (charLtB_iff.mp h₁) (charLtB_iff.mp h₂)
            have hne : ¬ x = z := by
              intro hc
              subst hc
              exact lt_irrefl _ hxz
            simp only [if_neg hne]
            exact charLtB_iff.mpr hxz

theorem listLtB_asymm {a b : List Char} (h₁ : listLtB a b = true) (h₂ : listLtB b a = true) :
    False := by
  have := listLtB_trans h₁ h₂
  rw [listLtB_irrefl] at this
  exact Bool.false_ne_true this

theorem listLtB_total :
    ∀ {a b : List Char}, a ≠ b → listLtB a b = true ∨ listLtB b a = true := by
  intro a
  induction a with
  | nil =>
    intro b h
    cases b with
    | nil => exact absurd rfl h
    | cons y bs => simp [listLtB]
  | cons x as ih =>
    intro b h
    cases b with
    | nil => simp [listLtB]
    | cons y bs =>
      by_cases hxy : x = y
      · subst hxy
        have hne : as ≠ bs := fun hc => h (by rw [hc])
        rcases ih hne with h' | h'
        · exact Or.inl (by simp [listLtB, h'])
        · exact Or.inr (by simp [listLtB, h'])
      · have hnat : x.toNat ≠ y.toNat := fun hc => hxy (charToNat_inj hc)
        rcases Nat.lt_or_ge x.toNat y.toNat with h' | h'
        · exact Or.inl (by simp [listLtB, hxy, charLtB_iff, h'])
        · have : y.toNat < x.toNat := lt_of_le_of_ne h' (Ne.symm hnat)
          exact Or.inr (by simp [listLtB, Ne.symm hxy, charLtB_iff, this])

theorem string_data_inj {a b : String} (h : a.data = b.data) : a = b := by
  cases a
  cases b
  exact congrArg String.mk (by simpa using h)

theorem strLeB_refl (a : String) : strLeB a a = true := by simp [strLeB]

theorem strLeB_total (a b : String) : strLeB a b = true ∨ strLeB b a = true := by
  by_cases h : a = b
  · subst h
    exact Or.inl (strLeB_refl a)
  · have hd : a.data ≠ b.data := fun hc => h (string_data_inj hc)
    rcases listLtB_total hd with h' | h'
    · exact Or.inl (by simp [strLeB, h'])
    · exact Or.inr (by simp [strLeB, h'])

theorem strLeB_trans {a b c : String} (h₁ : strLeB a b = true) (h₂ : strLeB b c = true) :
    strLeB a c = true := by
  simp only [strLeB, Bool.or_eq_true, decide_eq_true_eq] at h₁ h₂ ⊢
  rcases h₁ with rfl | h₁
  · exact h₂
  · rcases h₂ with rfl | h₂
    · exact Or.inr h₁
    · exact Or.inr (listLtB_trans h₁ h₂)

theorem strLeB_antisymm {a b : String} (h₁ : strLeB a b = true) (h₂ : strLeB b a = true) :
    a = b := by
  simp only [strLeB, Bool.or_eq_true, decide_eq_true_eq] at h₁ h₂
  rcases h₁ with rfl | h₁
  · rfl
  · rcases h₂ with rfl | h₂
    · rfl
    · exact absurd h₂ (fun hc => listLtB_asymm h₁ hc)

instance : IsTotal String strLeProp := ⟨strLeB_total⟩

instance : IsTrans String strLeProp := ⟨fun _ _ _ => strLeB_trans⟩

theorem qLeB_iff {a b : ℚ} : qLeB a b = true ↔ a ≤ b := by simp [qLeB]

theorem qLeB_total (a b : ℚ) : qLeB a b = true ∨ qLeB b a = true := by
  rcases le_total a b with h | h
  · exact Or.inl (qLeB_iff.mpr h)
  · exact Or.inr (qLeB_iff.mpr h)

theorem qLeB_trans {a b c : ℚ} (h₁ : qLeB a b = true) (h₂ : qLeB b c = true) :
    qLeB a c = true :=
  qLeB_iff.mpr (le_trans (qLeB_iff.mp h₁) (qLeB_iff.mp h₂))

theorem qLeB_antisymm {a b : ℚ} (h₁ : qLeB a b = true) (h₂ : qLeB b a = true) : a = b :=
  le_antisymm (qLeB_iff.mp h₁) (qLeB_iff.mp h₂)

theorem optLeB_total {α : Type} (le : α → α → Bool)
    (h : ∀ a b, le a b = true ∨ le b a = true) (x y : Option α) :
    optLeB le x y = true ∨ optLeB le y x = true := by
  cases x <;> cases y <;> simp [optLeB]
  exact h _ _

theorem optLeB_trans {α : Type} (le : α → α → Bool)
    (htr : ∀ {a b c}, le a b = true → le b c = true → le a c = true)
    {x y z : Option α} (h₁ : optLeB le x y = true) (h₂ : optLeB le y z = true) :
    optLeB le x z = true := by
  cases x <;> cases y <;> cases z <;> simp_all [optLeB]
  exact htr h₁ h₂

theorem optLeB_antisymm {α : Type} (le : α → α → Bool)
    (h : ∀ a b, le a b = true → le b a = true → a = b)
    {x y : Option α} (h₁ : optLeB le x y = true) (h₂ : optLeB le y x = true) : x = y := by
  cases x <;> cases y <;> simp_all [optLeB]
  exact h _ _ h₁ h₂

theorem cellLeB_total (a b : Cell) : Cell.leB a b = true ∨ Cell.leB b a = true := by
  cases a <;> cases b <;> simp [Cell.leB]
  · exact qLeB_total _ _
  · exact strLeB_total _ _

theorem cellLeB_trans {a b c : Cell} (h₁ : Cell.leB a b = true) (h₂ : Cell.leB b c = true) :
    Cell.leB a c = true := by
  cases a <;> cases b <;> cases c <;> simp_all [Cell.leB]
  · exact qLeB_trans h₁ h₂
  · exact strLeB_trans h₁ h₂

theorem cellLeB_antisymm {a b : Cell} (h₁ : Cell.leB a b = true) (h₂ : Cell.leB b a = true) :
    a = b := by
  cases a <;> cases b <;> simp_all [Cell.leB]
  · exact qLeB_antisymm h₁ h₂
  · exact strLeB_antisymm h₁ h₂

theorem lexStep_total {α : Type} [DecidableEq α] {le : α → α → Bool}
    (h : ∀ a b, le a b = true ∨ le b a = true) (a b : α) {r₁ r₂ : Bool}
    (hr : r₁ = true ∨ r₂ = true) :
    lexStep le a b r₁ = true ∨ lexStep le b a r₂ = true := by
  unfold lexStep
  by_cases hab : a = b
  · subst hab
    simpa using hr
  · rw [if_neg hab, if_neg (Ne.symm hab)]
    exact h a b

theorem lexStep_trans {α : Type} [DecidableEq α] {le : α → α → Bool}
    (htr : ∀ {a b c}, le a b = true → le b c = true → le a c = true)
    (hanti : ∀ {a b}, le a b = true → le b a = true → a = b)
    {a b c : α} {r₁ r₂ r₃ : Bool} (hr : r₁ = true → r₂ = true → r₃ = true)
    (h₁ : lexStep le a b r₁ = true) (h₂ : lexStep le b c r₂ = true) :
    lexStep le a c r₃ = true := by
  unfold lexStep at h₁ h₂ ⊢
  by_cases hab : a = b
  · subst hab
    rw [if_pos rfl] at h₁
    by_cases hbc : a = c
    · subst hbc
      rw [if_pos rfl] at h₂ ⊢
      exact hr h₁ h₂
    · rw [if_neg hbc] at h₂ ⊢
      exact h₂
  · rw [if_neg hab] at h₁
    by_cases hbc : b = c
    · subst hbc
      rw [if_neg hab]
      exact h₁
    · rw [if_neg hbc] at h₂
      have hac : ¬ a = c := by
        intro hc
        subst hc
        exact hab (hanti h₁ h₂)
      rw [if_neg hac]
      exact htr h₁ h₂

theorem gkeyLeB_total (x y : GKey) : GKey.leB x y = true ∨ GKey.leB y x = true := by
  unfold GKey.leB
  refine lexStep_total (optLeB_total _ strLeB_total) _ _ ?_
  refine lexStep_total (optLeB_total _ qLeB_total) _ _ ?_
  refine lexStep_total (optLeB_total _ strLeB_total) _ _ ?_
  refine lexStep_total (optLeB_total _ strLeB_total) _ _ ?_
  refine lexStep_total (optLeB_total _ strLeB_total) _ _ ?_
  refine lexStep_total cellLeB_total _ _ ?_
  refine lexStep_total (optLeB_total _ strLeB_total) _ _ ?_
  exact Or.inl rfl

theorem optStrLeB_trans {x y z : Option String} (h₁ : optLeB strLeB x y = true)
    (h₂ : optLeB strLeB y z = true) : optLeB strLeB x z = true :=
  optLeB_trans strLeB (fun h h' => strLeB_trans h h') h₁ h₂

theorem optStrLeB_antisymm {x y : Option String} (h₁ : optLeB strLeB x y = true)
    (h₂ : optLeB strLeB y x = true) : x = y :=
  optLeB_antisymm strLeB (fun _ _ h h' => strLeB_antisymm h h') h₁ h₂

theorem optQLeB_trans {x y z : Option ℚ} (h₁ : optLeB qLeB x y = true)
    (h₂ : optLeB qLeB y z = true) : optLeB qLeB x z = true :=
  optLeB_trans qLeB (fun h h' => qLeB_trans h h') h₁ h₂

theorem optQLeB_antisymm {x y : Option ℚ} (h₁ : optLeB qLeB x y = true)
    (h₂ : optLeB qLeB y x = true) : x = y :=
  optLeB_antisymm qLeB (fun _ _ h h' => qLeB_antisymm h h') h₁ h₂

theorem gkeyLeB_trans {x y z : GKey} (h₁ : GKey.leB x y = true) (h₂ : GKey.leB y z = true) :
    GKey.leB x z = true := by
  unfold GKey.leB at h₁ h₂ ⊢
  refine @lexStep_trans (Option String) _ (optLeB strLeB)
    (fun {_ _ _} h h' => optStrLeB_trans h h') (fun {_ _} h h' => optStrLeB_antisymm h h')
    _ _ _ _ _ _ (fun a b => ?_) h₁ h₂
  refine @lexStep_trans (Option ℚ) _ (optLeB qLeB)
    (fun {_ _ _} h h' => optQLeB_trans h h') (fun {_ _} h h' => optQLeB_antisymm h h')
    _ _ _ _ _ _ (fun a b => ?_) a b
  refine @lexStep_trans (Option String) _ (optLeB strLeB)
    (fun {_ _ _} h h' => optStrLeB_trans h h') (fun {_ _} h h' => optStrLeB_antisymm h h')
    _ _ _ _ _ _ (fun a b => ?_) a b
  refine @lexStep_trans (Option String) _ (optLeB strLeB)
    (fun {_ _ _} h h' => optStrLeB_trans h h') (fun {_ _} h h' => optStrLeB_antisymm h h')
    _ _ _ _ _ _ (fun a b => ?_) a b
  refine @lexStep_trans (Option String) _ (optLeB strLeB)
    (fun {_ _ _} h h' => optStrLeB_trans h h') (fun {_ _} h h' => optStrLeB_antisymm h h')
    _ _ _ _ _ _ (fun a b => ?_) a b
  refine @lexStep_trans Cell _ Cell.leB
    (fun {_ _ _} h h' => cellLeB_trans h h') (fun {_ _} h h' => cellLeB_antisymm h h')
    _ _ _ _ _ _ (fun a b => ?_) a b
  refine @lexStep_trans (Option String) _ (optLeB strLeB)
    (fun {_ _ _} h h' => optStrLeB_trans h h') (fun {_ _} h h' => optStrLeB_antisymm h h')
    _ _ _ _ _ _ (fun a b => rfl) a b

instance : IsTotal GKey GKey.leProp := ⟨gkeyLeB_total⟩

instance : IsTrans GKey GKey.leProp := ⟨fun _ _ _ => gkeyLeB_trans⟩

/-- Claim C6, counterexample. The claim says output rows appear in first-
appearance order of the group keys. For an input whose first leg has
structure "B" and whose second leg has structure "A", the output keys come
out sorted as A then B (pandas `groupby` defaults to `sort=True`), not in the
first-appearance order B then A. -/
theorem C6_output_order_counterexample :
    (agrupar [opLegB, opLegA]).map URow.key ≠ [opLegB.key, opLegA.key] ∧
    (agrupar [opLegB, opLegA]).map URow.key = [opLegA.key, opLegB.key] ∧
    opLegA.key ≠ opLegB.key := by
  refine ⟨?_, ?_, ?_⟩ <;> decide

/-- Claim C6, amended. The output rows appear sorted ascending by the group
key (the pandas `groupby` default), and the output keys are exactly the keys
occurring in the input. -/
theorem C6_output_order_amended (rows : List OpRow) :
    List.Sorted GKey.leProp ((agrupar rows).map URow.key) ∧
    (∀ k, k ∈ (agrupar rows).map URow.key ↔ k ∈ rows.map OpRow.key) := by
  constructor
  · rw [agrupar_map_key]
    exact List.sorted_insertionSort GKey.leProp _
  · intro k
    rw [agrupar_map_key]
    exact groupKeys_mem rows k

theorem aggMin_eq_min? (xs : List (Option ℚ)) : aggMin xs = (xs.filterMap id).min? := by
  unfold aggMin
  cases h : xs.filterMap id with
  | nil => rfl
  | cons a t => rfl

theorem aggMax_eq_max? (xs : List (Option ℚ)) : aggMax xs = (xs.filterMap id).max? := by
  unfold aggMax
  cases h : xs.filterMap id with
  | nil => rfl
  | cons a t => rfl

theorem aggSum_eq_getD_sum (xs : List (Option ℚ)) :
    aggSum xs = (xs.map (fun o => o.getD 0)).sum := by
  unfold aggSum
  induction xs with
  | nil => rfl
  | cons a t ih =>
    cases a with
    | none => simpa [List.filterMap_cons] using ih
    | some q => simp [List.filterMap_cons, ih]

theorem primeira_nao_nula_eq_find? (xs : List Cell) :
    primeira_nao_nula xs = ((xs.find? (fun c => ¬ c = Cell.null)).getD Cell.null) := by
  induction xs with
  | nil => rfl
  | cons c t ih =>
    by_cases hc : c = Cell.null
    · subst hc
      simpa [primeira_nao_nula, List.filter_cons, List.find?_cons] using ih
    · simp [primeira_nao_nula, List.filter_cons, List.find?_cons, hc]

theorem joinSortedDistinct_spec (xs : List (Option String)) :
    ∃ ws : List String, ws.Nodup ∧ (∀ s, s ∈ ws ↔ some s ∈ xs) ∧
      List.Sorted strLeProp ws ∧ joinSortedDistinct xs = String.intercalate ", " ws := by
  refine ⟨List.insertionSort strLeProp (firstOccDedup (xs.filterMap id)), ?_, fun s => ?_, ?_, rfl⟩
  · exact (List.perm_insertionSort _ _).nodup_iff.mpr (firstOccDedup_nodup _)
  · rw [(List.perm_insertionSort _ _).mem_iff, firstOccDedup_mem]
    simp [List.mem_filterMap]
  · exact List.sorted_insertionSort strLeProp _

/-- Claim C4. In each unified row, the strike price is the minimum of the
legs' (non-null) strike prices, the quantity is the maximum, the bid/offer
adjustment is the sum with null counted as 0, the operation and option types
are the distinct non-null values sorted ascending and joined with ", ", and
each barrier/rebate/knock-in field is the first non-null value in original
row order, null when all are null. -/
theorem C4_aggGroup_reductions (k : GKey) (legs : List OpRow) :
    (aggGroup k legs).preco_exercicio = (legs.filterMap OpRow.preco_exercicio).min? ∧
    (aggGroup k legs).quantidade = (legs.filterMap OpRow.quantidade).max? ∧
    (aggGroup k legs).bid_offer = (legs.map (fun l => (OpRow.bid_offer l).getD 0)).sum ∧
    (∃ ws : List String, ws.Nodup ∧ (∀ s, s ∈ ws ↔ some s ∈ legs.map OpRow.tipo_operacao) ∧
      List.Sorted strLeProp ws ∧
      (aggGroup k legs).tipo_operacao = String.intercalate ", " ws) ∧
    (∃ ws : List String, ws.Nodup ∧ (∀ s, s ∈ ws ↔ some s ∈ legs.map OpRow.tipo_opcao) ∧
      List.Sorted strLeProp ws ∧
      (aggGroup k legs).tipo_opcao = String.intercalate ", " ws) ∧
    (aggGroup k legs).barreira_knock_in =
      ((legs.map OpRow.barreira_knock_in).find? (fun c => ¬ c = Cell.null)).getD Cell.null ∧
    (aggGroup k legs).barreira_knock_out =
      ((legs.map OpRow.barreira_knock_out).find? (fun c => ¬ c = Cell.null)).getD Cell.null ∧
    (aggGroup k legs).direcao_barreira =
      ((legs.map OpRow.direcao_barreira).find? (fun c => ¬ c = Cell.null)).getD Cell.null ∧
    (aggGroup k legs).rebate =
      ((legs.map OpRow.rebate).find? (fun c => ¬ c = Cell.null)).getD Cell.null ∧
    (aggGroup k legs).knock_in_atingido =
      ((legs.map OpRow.knock_in_atingido).find? (fun c => ¬ c = Cell.null)).getD Cell.null := by
  refine ⟨?_, ?_, ?_, ?_, ?_, ?_, ?_, ?_, ?_, ?_⟩
  · show aggMin (legs.map OpRow.preco_exercicio) = _
    rw [aggMin_eq_min?, List.filterMap_map]
    rfl
  · show aggMax (legs.map OpRow.quantidade) = _
    rw [aggMax_eq_max?, List.filterMap_map]
    rfl
  · show aggSum (legs.map OpRow.bid_offer) = _
    rw [aggSum_eq_getD_sum, List.map_map]
    rfl
  · exact joinSortedDistinct_spec _
  · exact joinSortedDistinct_spec _
  · exact primeira_nao_nula_eq_find? _
  · exact primeira_nao_nula_eq_find? _
  · exact primeira_nao_nula_eq_find? _
  · exact primeira_nao_nula_eq_find? _
  · exact primeira_nao_nula_eq_find? _

/-- Concrete instance of claim C4, the scenario of spec §8: two legs with
adjustments +2 and −3 and quantities 100 and 150 unify to adjustment −1 and
quantity 150; the distinct operation types "V" and "C" join sorted as
"C, V". -/
theorem C4_aggGroup_reductions_witness :
    (aggGroup opLegB.key [opLegB, opLegV]).bid_offer = -1 ∧
    (aggGroup opLegB.key [opLegB, opLegV]).quantidade = some 150 ∧
    (aggGroup opLegB.key [opLegB, opLegV]).tipo_operacao = "C, V" := by
  have h := C4_aggGroup_reductions opLegB.key [opLegB, opLegV]
  refine ⟨?_, ?_, ?_⟩
  · rw [h.2.2.1]
    simp [opLegB, opLegV]
    norm_num
  · rw [h.2.1]
    decide
  · decide

theorem length_filter_le_one {α κ : Type} [DecidableEq κ] (f : α → κ) (p : α → Bool)
    (hp : ∀ a b, p a = true → p b = true → f a = f b) :
    ∀ l : List α, ((l.map f).Nodup) → (l.filter p).length ≤ 1 := by
  intro l
  induction l with
  | nil => intro _; simp
  | cons a t ih =>
    intro hnd
    simp only [List.map_cons, List.nodup_cons] at hnd
    by_cases hpa : p a = true
    · have ht : t.filter p = [] := by
        rw [List.filter_eq_nil_iff]
        intro b hb hpb
        exact hnd.1 (List.mem_map.mpr ⟨b, hb, (hp b a hpb hpa).symm ▸ rfl⟩)
      simp [List.filter_cons, hpa, ht]
    · simpa [List.filter_cons, hpa] using ih hnd.2

theorem mergeAssessores_row_counts (ops : List URow) (adv : List AdvRow)
    (hnd : (adv.map AdvRow.conta).Nodup) :
    (mergeAssessores ops adv).length = ops.length := by
  induction ops with
  | nil => rfl
  | cons o t ih =>
    have hlen : (adv.filter (fun a => a.conta = o.key.conta_cliente)).length ≤ 1 := by
      refine length_filter_le_one AdvRow.conta _ ?_ adv hnd
      intro a b ha hb
      simp only [decide_eq_true_eq] at ha hb
      rw [ha, hb]
    simp only [mergeAssessores, List.flatMap_cons] at *
    cases hf : adv.filter (fun a => a.conta = o.key.conta_cliente) with
    | nil => simpa [hf] using ih
    | cons m ms =>
      rw [hf] at hlen
      have hms : ms = [] := by
        cases ms with
        | nil => rfl
        | cons m2 ms2 => simp at hlen
      subst hms
      simpa [hf] using ih

theorem mergeAssessores_unmatched (ops : List URow) (adv : List AdvRow) (o : URow)
    (ho : o ∈ ops) (hnone : ∀ a ∈ adv, ¬ a.conta = o.key.conta_cliente) :
    (⟨o, Cell.null, Cell.null⟩ : MRow) ∈ mergeAssessores ops adv := by
  have hf : adv.filter (fun a => a.conta = o.key.conta_cliente) = [] := by
    rw [List.filter_eq_nil_iff]
    intro a ha
    simpa using hnone a ha
  unfold mergeAssessores
  rw [List.mem_flatMap]
  exact ⟨o, ho, by rw [hf]; simp⟩

theorem dashMin_keys_nodup (dash : List DashRow) :
    ((dashMin dash).map DashMin.keyTriple).Nodup :=
  fodBy_keys_nodup DashMin.keyTriple _

theorem mergeDash_row_counts (rows : List NRow) (dash : List DashRow) :
    (mergeDash rows (dashMin dash)).length = rows.length := by
  have hnd := dashMin_keys_nodup dash
  induction rows with
  | nil => rfl
  | cons n t ih =>
    have hlen : ((dashMin dash).filter (fun d =>
        n.conta_cliente = some d.conta ∧ n.ativo = d.ativo ∧
        n.fixing_norm = some d.fixing)).length ≤ 1 := by
      refine length_filter_le_one DashMin.keyTriple _ ?_ (dashMin dash) hnd
      intro a b ha hb
      simp only [decide_eq_true_eq] at ha hb
      obtain ⟨ha1, ha2, ha3⟩ := ha
      obtain ⟨hb1, hb2, hb3⟩ := hb
      unfold DashMin.keyTriple
      rw [ha1] at hb1
      rw [ha2] at hb2
      rw [ha3] at hb3
      simp only [Option.some_inj] at hb1 hb3
      rw [hb1, hb2, hb3]
    simp only [mergeDash, List.flatMap_cons] at *
    cases hf : (dashMin dash).filter (fun d =>
        n.conta_cliente = some d.conta ∧ n.ativo = d.ativo ∧
        n.fixing_norm = some d.fixing) with
    | nil => simpa [hf] using ih
    | cons m ms =>
      rw [hf] at hlen
      have hms : ms = [] := by
        cases ms with
        | nil => rfl
        | cons m2 ms2 => simp at hlen
      subst hms
      simpa [hf] using ih

theorem mergeDash_unmatched (rows : List NRow) (dmin : List DashMin) (n : NRow)
    (hn : n ∈ rows)
    (hnone : ∀ d ∈ dmin, ¬ (n.conta_cliente = some d.conta ∧ n.ativo = d.ativo ∧
      n.fixing_norm = some d.fixing)) :
    (⟨n, none, none⟩ : FRow) ∈ mergeDash rows dmin := by
  have hf : dmin.filter (fun d =>
      n.conta_cliente = some d.conta ∧ n.ativo = d.ativo ∧
      n.fixing_norm = some d.fixing) = [] := by
    rw [List.filter_eq_nil_iff]
    intro d hd
    simpa using hnone d hd
  unfold mergeDash
  rw [List.mem_flatMap]
  exact ⟨n, hn, by rw [hf]; simp⟩

/-- Claim C2, counterexample. The claim says the advisor left-join preserves
the row count of the operations side because with duplicate advisor accounts
the first match wins. With two advisor records for account 100, one unified
operation for account 100 produces two output rows: pandas left merge emits
one row per matching right record, it does not pick the first. -/
theorem C2_join_row_count_counterexample :
    (mergeAssessores [uSample] [advN1, advN2]).length = 2 ∧
    ¬ (mergeAssessores [uSample] [advN1, advN2]).length = ([uSample] : List URow).length := by
  refine ⟨?_, ?_⟩ <;> decide

/-- Claim C2, amended. The dashboard left-join always preserves the row count
of the operations side (the dashboard is deduplicated on the join key
beforehand); the advisor left-join preserves it when no two advisor records
share an account, and an operation without a matching advisor record, or
without a matching dashboard record, still appears with null advisor/client
or price fields. -/
theorem C2_join_row_count_amended :
    (∀ rows dash, (mergeDash rows (dashMin dash)).length = rows.length) ∧
    (∀ (ops : List URow) (adv : List AdvRow), (adv.map AdvRow.conta).Nodup →
      (mergeAssessores ops adv).length = ops.length) ∧
    (∀ (ops : List URow) (adv : List AdvRow) (o : URow), o ∈ ops →
      (∀ a ∈ adv, ¬ a.conta = o.key.conta_cliente) →
      (⟨o, Cell.null, Cell.null⟩ : MRow) ∈ mergeAssessores ops adv) ∧
    (∀ (rows : List NRow) (dash : List DashRow) (n : NRow), n ∈ rows →
      (∀ d ∈ dashMin dash, ¬ (n.conta_cliente = some d.conta ∧ n.ativo = d.ativo ∧
        n.fixing_norm = some d.fixing)) →
      (⟨n, none, none⟩ : FRow) ∈ mergeDash rows (dashMin dash)) :=
  ⟨mergeDash_row_counts,
   fun ops adv hnd => mergeAssessores_row_counts ops adv hnd,
   fun ops adv o ho hnone => mergeAssessores_unmatched ops adv o ho hnone,
   fun rows dash n hn hnone => mergeDash_unmatched rows (dashMin dash) n hn hnone⟩

/-- Concrete instance of claim C2 as amended: a dashboard merge against an
empty dashboard and an advisor merge against one advisor record preserve the
single row, and unmatched rows appear with nulls (the spec §8 account-999
scenario with an empty advisor table). -/
theorem C2_join_row_count_amended_witness :
    (mergeDash [nZeroBase] (dashMin [])).length = 1 ∧
    (mergeAssessores [uSample] [advN1]).length = 1 ∧
    (⟨uSample, Cell.null, Cell.null⟩ : MRow) ∈ mergeAssessores [uSample] [] ∧
    (⟨nZeroBase, none, none⟩ : FRow) ∈ mergeDash [nZeroBase] (dashMin []) :=
  ⟨C2_join_row_count_amended.1 [nZeroBase] [],
   C2_join_row_count_amended.2.1 [uSample] [advN1] (by decide),
   C2_join_row_count_amended.2.2.1 [uSample] [] uSample (by simp) (by simp),
   C2_join_row_count_amended.2.2.2 [nZeroBase] [] nZeroBase (by simp)
     (by simp [dashMin, firstOccDedupBy, firstOccDedupBy.go])⟩

theorem fval_ofOpt_some (q : ℚ) : FVal.ofOpt (some q) = FVal.num q := rfl

theorem fval_num_add (a b : ℚ) : FVal.num a + FVal.num b = FVal.num (a + b) := rfl

theorem fval_num_mul (a b : ℚ) : FVal.num a * FVal.num b = FVal.num (a * b) := rfl

theorem fval_num_sub (a b : ℚ) : FVal.num a - FVal.num b = FVal.num (a - b) := by
  rw [sub_eq_add_neg]
  rfl

theorem fval_nan_add (x : FVal) : FVal.nan + x = FVal.nan := by cases x <;> rfl

theorem fval_nan_div (x : FVal) : FVal.nan / x = FVal.nan := by cases x <;> rfl

theorem fval_num_div_zero_zero : FVal.num 0 / FVal.num 0 = FVal.nan := by
  show FVal.div _ _ = _
  simp [FVal.div]

theorem fval_num_div_pos_zero (a : ℚ) (ha : 0 < a) : FVal.num a / FVal.num 0 = FVal.inf := by
  show FVal.div _ _ = _
  simp [FVal.div, ha.ne', ha]

theorem fval_num_div_neg_zero (a : ℚ) (ha : a < 0) : FVal.num a / FVal.num 0 = FVal.ninf := by
  show FVal.div _ _ = _
  simp [FVal.div, ha.ne, not_lt.mpr ha.le]

theorem fval_inf_sub_num (b : ℚ) : FVal.inf - FVal.num b = FVal.inf := rfl

theorem fval_ninf_sub_num (b : ℚ) : FVal.ninf - FVal.num b = FVal.ninf := rfl

theorem fval_inf_mul_pos (b : ℚ) (hb : 0 < b) : FVal.inf * FVal.num b = FVal.inf := by
  show FVal.mul _ _ = _
  simp [FVal.mul, hb]

theorem fval_ninf_mul_pos (b : ℚ) (hb : 0 < b) : FVal.ninf * FVal.num b = FVal.ninf := by
  show FVal.mul _ _ = _
  simp [FVal.mul, hb]

theorem baseAbertura_fZeroBase : baseAbertura fZeroBase = FVal.num 0 := by
  show FVal.num 100 * FVal.num 0 = _
  rw [fval_num_mul]
  norm_num

theorem rsh_fZeroBase : resultadoSaindoHoje fZeroBase = FVal.num 1000 := by
  show (FVal.num 10 - FVal.num 0) * FVal.num 100 + FVal.num 0 * FVal.num 100 = _
  rw [fval_num_sub, fval_num_mul, fval_num_mul, fval_num_add]
  norm_num

theorem baseAbertura_fZeroQty : baseAbertura fZeroQty = FVal.num 0 := by
  show FVal.num 0 * FVal.num 0 = _
  rw [fval_num_mul]
  norm_num

theorem rsh_fZeroQty : resultadoSaindoHoje fZeroQty = FVal.num 0 := by
  show (FVal.num 10 - FVal.num 0) * FVal.num 0 + FVal.num 0 * FVal.num 0 = _
  rw [fval_num_sub, fval_num_mul, fval_num_mul, fval_num_add]
  norm_num

/-- Claim C5, counterexample. The claim says a zero base always makes the
percent-leaving-today metric null. For a row with quantity 100, opening
price 0, market price 10 and zero adjustment, the base is zero but the
result leaving today is 1000, so the division yields infinity: a non-null
numeric float cell, not null. -/
theorem C5_pct_zero_base_counterexample :
    baseAbertura fZeroBase = FVal.num 0 ∧
    pctSaindoHoje fZeroBase = FVal.inf ∧
    (pctSaindoHoje fZeroBase).notnull = true := by
  refine ⟨baseAbertura_fZeroBase, ?_, ?_⟩
  · rw [pctSaindoHoje, baseAbertura_fZeroBase, rsh_fZeroBase, fval_num_add]
    norm_num
    rw [fval_num_div_pos_zero 1000 (by norm_num), fval_inf_sub_num,
      fval_inf_mul_pos 100 (by norm_num)]
  · rw [pctSaindoHoje, baseAbertura_fZeroBase, rsh_fZeroBase, fval_num_add]
    norm_num
    rw [fval_num_div_pos_zero 1000 (by norm_num), fval_inf_sub_num,
      fval_inf_mul_pos 100 (by norm_num)]
    rfl

/-- Claim C5, amended. The division never raises (the metric is a total
function into float cells). A null base gives a null metric; a zero base
gives a null metric when the result leaving today is also zero (for instance
a zero quantity), but a zero base with a non-zero finite result leaving
today gives an infinity: non-null, not null as claimed. -/
theorem C5_pct_zero_base_amended (f : FRow) :
    (baseAbertura f = FVal.nan → pctSaindoHoje f = FVal.nan) ∧
    (baseAbertura f = FVal.num 0 → resultadoSaindoHoje f = FVal.num 0 →
      pctSaindoHoje f = FVal.nan) ∧
    (∀ r : ℚ, baseAbertura f = FVal.num 0 → resultadoSaindoHoje f = FVal.num r →
      ¬ r = 0 → (pctSaindoHoje f).notnull = true) := by
  refine ⟨fun h => ?_, fun h1 h2 => ?_, fun r h1 h2 hr => ?_⟩
  · rw [pctSaindoHoje, h]
    cases hr : resultadoSaindoHoje f <;> rfl
  · rw [pctSaindoHoje, h1, h2, fval_num_add]
    norm_num
    rw [fval_num_div_zero_zero]
    rfl
  · rw [pctSaindoHoje, h1, h2, fval_num_add, zero_add]
    rcases lt_trichotomy r 0 with hneg | hzero | hpos
    · rw [fval_num_div_neg_zero r hneg, fval_ninf_sub_num,
        fval_ninf_mul_pos 100 (by norm_num)]
      rfl
    · exact absurd hzero hr
    · rw [fval_num_div_pos_zero r hpos, fval_inf_sub_num,
        fval_inf_mul_pos 100 (by norm_num)]
      rfl

/-- Concrete instance of claim C5 as amended: the zero-quantity row has a
zero base and a zero result, so its metric is null; the zero-opening-price
row has a zero base and result 1000, so its metric is non-null. -/
theorem C5_pct_zero_base_amended_witness :
    pctSaindoHoje fNanBase = FVal.nan ∧
    pctSaindoHoje fZeroQty = FVal.nan ∧
    (pctSaindoHoje fZeroBase).notnull = true :=
  ⟨(C5_pct_zero_base_amended fNanBase).1 rfl,
   (C5_pct_zero_base_amended fZeroQty).2.1 baseAbertura_fZeroQty rsh_fZeroQty,
   (C5_pct_zero_base_amended fZeroBase).2.2 1000 baseAbertura_fZeroBase rsh_fZeroBase
     (by norm_num)⟩

/-- Claim C8. The classification is "PAGA" exactly when the net adjustment is
non-null and negative, "RECEBE" exactly when non-null and positive, "NEUTRO"
exactly when null or zero; the three labels are exhaustive (every row gets
one of them) and, the three strings being distinct, mutually exclusive. The
output row's classification column is this function of its net
adjustment. -/
theorem C8_classification_trichotomy (x : Option ℚ) :
    (clientePagaRecebe x = "PAGA" ↔ ∃ q, x = some q ∧ q < 0) ∧
    (clientePagaRecebe x = "RECEBE" ↔ ∃ q, x = some q ∧ 0 < q) ∧
    (clientePagaRecebe x = "NEUTRO" ↔ x = none ∨ x = some 0) ∧
    (clientePagaRecebe x = "PAGA" ∨ clientePagaRecebe x = "RECEBE" ∨
      clientePagaRecebe x = "NEUTRO") ∧
    (∀ f : FRow, (outOfF f).cliente_paga_recebe = clientePagaRecebe f.n.paga_recebe) := by
  refine ⟨?_, ?_, ?_, ?_, fun f => rfl⟩
  · cases x with
    | none =>
      simp only [clientePagaRecebe]
      constructor
      · intro hc
        exact absurd hc (by decide)
      · rintro ⟨q, hq, _⟩
        exact absurd hq (by simp)
    | some q =>
      simp only [clientePagaRecebe]
      rcases lt_trichotomy q 0 with h | h | h
      · rw [if_pos h]
        exact ⟨fun _ => ⟨q, rfl, h⟩, fun _ => rfl⟩
      · subst h
        rw [if_neg (lt_irrefl 0), if_neg (lt_irrefl 0)]
        constructor
        · intro hc
          exact absurd hc (by decide)
        · rintro ⟨r, hr, hlt⟩
          rw [Option.some_inj] at hr
          rw [← hr] at hlt
          exact absurd hlt (lt_irrefl 0)
      · rw [if_neg (asymm h), if_pos h]
        constructor
        · intro hc
          exact absurd hc (by decide)
        · rintro ⟨r, hr, hlt⟩
          rw [Option.some_inj] at hr
          rw [← hr] at hlt
          exact absurd hlt (asymm h)
  · cases x with
    | none =>
      simp only [clientePagaRecebe]
      constructor
      · intro hc
        exact absurd hc (by decide)
      · rintro ⟨q, hq, _⟩
        exact absurd hq (by simp)
    | some q =>
      simp only [clientePagaRecebe]
      rcases lt_trichotomy q 0 with h | h | h
      · rw [if_pos h]
        constructor
        · intro hc
          exact absurd hc (by decide)
        · rintro ⟨r, hr, hlt⟩
          rw [Option.some_inj] at hr
          rw [← hr] at hlt
          exact absurd hlt (asymm h)
      · subst h
        rw [if_neg (lt_irrefl 0), if_neg (lt_irrefl 0)]
        constructor
        · intro hc
          exact absurd hc (by decide)
        · rintro ⟨r, hr, hlt⟩
          rw [Option.some_inj] at hr
          rw [← hr] at hlt
          exact absurd hlt (lt_irrefl 0)
      · rw [if_neg (asymm h), if_pos h]
        exact ⟨fun _ => ⟨q, rfl, h⟩, fun _ => rfl⟩
  · cases x with
    | none => simp [clientePagaRecebe]
    | some q =>
      simp only [clientePagaRecebe]
      rcases lt_trichotomy q 0 with h | h | h
      · rw [if_pos h]
        constructor
        · intro hc
          exact absurd hc (by decide)
        · rintro (hc | hc)
          · exact absurd hc (by simp)
          · rw [Option.some_inj] at hc
            rw [hc] at h
            exact absurd h (lt_irrefl 0)
      · subst h
        rw [if_neg (lt_irrefl 0), if_neg (lt_irrefl 0)]
        exact ⟨fun _ => Or.inr rfl, fun _ => rfl⟩
      · rw [if_neg (asymm h), if_pos h]
        constructor
        · intro hc
          exact absurd hc (by decide)
        · rintro (hc | hc)
          · exact absurd hc (by simp)
          · rw [Option.some_inj] at hc
            rw [hc] at h
            exact absurd h (lt_irrefl 0)
  · cases x with
    | none => exact Or.inr (Or.inr rfl)
    | some q =>
      simp only [clientePagaRecebe]
      rcases lt_trichotomy q 0 with h | h | h
      · exact Or.inl (by rw [if_pos h])
      · subst h
        exact Or.inr (Or.inr (by rw [if_neg (lt_irrefl 0), if_neg (lt_irrefl 0)]))
      · exact Or.inr (Or.inl (by rw [if_neg (asymm h), if_pos h]))

/-- Concrete instance of claim C8: a negative, a positive, a zero and a null
adjustment classify as "PAGA", "RECEBE", "NEUTRO", "NEUTRO". -/
theorem C8_classification_trichotomy_witness :
    clientePagaRecebe (some (-2)) = "PAGA" ∧ clientePagaRecebe (some 3) = "RECEBE" ∧
    clientePagaRecebe (some 0) = "NEUTRO" ∧ clientePagaRecebe none = "NEUTRO" :=
  ⟨(C8_classification_trichotomy (some (-2))).1.mpr ⟨-2, rfl, by norm_num⟩,
   (C8_classification_trichotomy (some 3)).2.1.mpr ⟨3, rfl, by norm_num⟩,
   (C8_classification_trichotomy (some 0)).2.2.1.mpr (Or.inr rfl),
   (C8_classification_trichotomy none).2.2.1.mpr (Or.inl rfl)⟩

/-- Claim C7. Validation reports, per input table, exactly the required
columns absent from it; a missing column in any input makes `processar_dados`
fail with the error naming those columns (the three inputs checked in order
Advisors, Operations, Dashboard), and an error means no output rows at all
are produced — the pipeline body only runs when all three checks pass. -/
theorem C7_schema_validation (ass : PTable AdvRow) (ops : PTable OpRow)
    (dash : PTable DashRow) :
    (∀ c, c ∈ faltando cols_assessores_obrig ass.cols ↔
      c ∈ cols_assessores_obrig ∧ ¬ c ∈ ass.cols) ∧
    (∀ c, c ∈ faltando cols_ops_obrig ops.cols ↔
      c ∈ cols_ops_obrig ∧ ¬ c ∈ ops.cols) ∧
    (∀ c, c ∈ faltando cols_dash_obrig dash.cols ↔
      c ∈ cols_dash_obrig ∧ ¬ c ∈ dash.cols) ∧
    (¬ faltando cols_assessores_obrig ass.cols = [] →
      processar_dados ass ops dash =
        Except.error (PipeErr.schemaAssessores (faltando cols_assessores_obrig ass.cols))) ∧
    (faltando cols_assessores_obrig ass.cols = [] →
      ¬ faltando cols_ops_obrig ops.cols = [] →
      processar_dados ass ops dash =
        Except.error (PipeErr.schemaOps (faltando cols_ops_obrig ops.cols))) ∧
    (faltando cols_assessores_obrig ass.cols = [] →
      faltando cols_ops_obrig ops.cols = [] →
      ¬ faltando cols_dash_obrig dash.cols = [] →
      processar_dados ass ops dash =
        Except.error (PipeErr.schemaDash (faltando cols_dash_obrig dash.cols))) ∧
    (faltando cols_assessores_obrig ass.cols = [] →
      faltando cols_ops_obrig ops.cols = [] →
      faltando cols_dash_obrig dash.cols = [] →
      processar_dados ass ops dash =
        Except.ok (pipelineRows ass.rows ops.rows dash.rows)) := by
  refine ⟨fun c => ?_, fun c => ?_, fun c => ?_, fun h₁ => ?_, fun h₁ h₂ => ?_,
    fun h₁ h₂ h₃ => ?_, fun h₁ h₂ h₃ => ?_⟩
  · simp [faltando, List.mem_filter]
  · simp [faltando, List.mem_filter]
  · simp [faltando, List.mem_filter]
  · unfold processar_dados
    rw [if_pos h₁]
  · unfold processar_dados
    rw [if_neg (by simpa using h₁), if_pos h₂]
  · unfold processar_dados
    rw [if_neg (by simpa using h₁), if_neg (by simpa using h₂), if_pos h₃]
  · unfold processar_dados
    rw [if_neg (by simpa using h₁), if_neg (by simpa using h₂), if_neg (by simpa using h₃)]

/-- Concrete instance of claim C7: an Advisors table without its "Assessor"
column makes the pipeline fail with a schema error naming exactly
["Assessor"], and three well-formed tables make it succeed. -/
theorem C7_schema_validation_witness :
    processar_dados tAssBad tOpsOk tDashOk =
      Except.error (PipeErr.schemaAssessores ["Assessor"]) ∧
    processar_dados tAssOk tOpsBad tDashOk = Except.error (PipeErr.schemaOps ["Ref"]) ∧
    processar_dados tAssOk tOpsOk tDashBad = Except.error (PipeErr.schemaDash ["Conta"]) ∧
    processar_dados tAssOk tOpsOk tDashOk = Except.ok [] := by
  refine ⟨?_, ?_, ?_, ?_⟩
  · have h := (C7_schema_validation tAssBad tOpsOk tDashOk).2.2.2.1 (by decide)
    rw [h]
    have hf : faltando cols_assessores_obrig tAssBad.cols = ["Assessor"] := by decide
    rw [hf]
  · have h := (C7_schema_validation tAssOk tOpsBad tDashOk).2.2.2.2.1 (by decide) (by decide)
    rw [h]
    have hf : faltando cols_ops_obrig tOpsBad.cols = ["Ref"] := by decide
    rw [hf]
  · have h := (C7_schema_validation tAssOk tOpsOk tDashBad).2.2.2.2.2.1
      (by decide) (by decide) (by decide)
    rw [h]
    have hf : faltando cols_dash_obrig tDashBad.cols = ["Conta"] := by decide
    rw [hf]
  · have h := (C7_schema_validation tAssOk tOpsOk tDashOk).2.2.2.2.2.2
      (by decide) (by decide) (by decide)
    rw [h]
    rfl

theorem store_set_ne (σ : Store) (r : ℕ) (f : Frame) (x : ℕ) (h : ¬ x = r) :
    Store.set σ r f x = σ x := if_neg h

/-- Claim C10. `processar_dados` never mutates its three input frames: run as
a heap computation with all live references below the allocation bound, the
final heap agrees with the initial heap on the three input references
(validation errors touch nothing; on success every write lands on a
freshly-allocated copy or derived frame), and the value computed is that of
the pure pipeline on the input values. -/
theorem C10_inputs_not_mutated (σ : Store) (next rA rO rD : ℕ)
    (hA : rA < next) (hO : rO < next) (hD : rD < next) :
    (processar_dados_st σ next rA rO rD).1 rA = σ rA ∧
    (processar_dados_st σ next rA rO rD).1 rO = σ rO ∧
    (processar_dados_st σ next rA rO rD).1 rD = σ rD ∧
    (processar_dados_st σ next rA rO rD).2 =
      processar_dados (asAdv (σ rA)) (asOps (σ rO)) (asDash (σ rD)) := by
  have hst : ∀ x, x < next → (processar_dados_st σ next rA rO rD).1 x = σ x := by
    intro x hx
    simp only [processar_dados_st]
    split_ifs
    all_goals
      first
      | rfl
      | (show Store.set _ _ _ x = σ x
         repeat rw [store_set_ne _ _ _ _ (by omega)])
  refine ⟨hst rA hA, hst rO hO, hst rD hD, ?_⟩
  simp only [processar_dados_st, processar_dados]
  split_ifs <;> rfl

/-- Concrete instance of claim C10: a three-reference heap holding the three
well-formed empty tables is unchanged at those references by a run. -/
theorem C10_inputs_not_mutated_witness :
    ((processar_dados_st
        (fun n => if n = 0 then some (Frame.advF tAssOk)
          else if n = 1 then some (Frame.opsF tOpsOk)
          else if n = 2 then some (Frame.dashF tDashOk) else none)
        3 0 1 2).1 0 = some (Frame.advF tAssOk) ∧
      (processar_dados_st
        (fun n => if n = 0 then some (Frame.advF tAssOk)
          else if n = 1 then some (Frame.opsF tOpsOk)
          else if n = 2 then some (Frame.dashF tDashOk) else none)
        3 0 1 2).1 1 = some (Frame.opsF tOpsOk)) := by
  have h := C10_inputs_not_mutated
    (fun n => if n = 0 then some (Frame.advF tAssOk)
      else if n = 1 then some (Frame.opsF tOpsOk)
      else if n = 2 then some (Frame.dashF tDashOk) else none)
    3 0 1 2 (by omega) (by omega) (by omega)
  exact ⟨h.1, h.2.1⟩

theorem digitChar_not_special (k : ℕ) :
    ¬ digitChar k = ',' ∧ ¬ digitChar k = '.' ∧ ¬ digitChar k = 'X' := by
  rcases k with _|_|_|_|_|_|_|_|_|_|k
  all_goals simp [digitChar]

theorem group3Aux_mem (sep : Char) (l : List Char) (c : Char) (h : c ∈ group3Aux sep l) :
    c = sep ∨ c ∈ l := by
  induction l using group3Aux.induct sep with
  | case1 a b d e t ih =>
    simp only [group3Aux, List.mem_cons] at h ⊢
    rcases h with rfl | rfl | rfl | rfl | h
    · exact Or.inr (Or.inl rfl)
    · exact Or.inr (Or.inr (Or.inl rfl))
    · exact Or.inr (Or.inr (Or.inr (Or.inl rfl)))
    · exact Or.inl rfl
    · rcases ih h with h' | h'
      · exact Or.inl h'
      · exact Or.inr (Or.inr (Or.inr (Or.inr (List.mem_cons.mp h'))))
  | case2 l hl =>
    exact Or.inr (by simpa [group3Aux] using h)

theorem group3Aux_short (sep : Char) (l : List Char)
    (hl : ∀ (a b c d : Char) (t : List Char), l = a :: b :: c :: d :: t → False) :
    group3Aux sep l = l := by
  match l with
  | [] => rfl
  | [a] => rfl
  | [a, b] => rfl
  | [a, b, c] => rfl
  | a :: b :: c :: d :: t => exact absurd rfl (hl a b c d t)

theorem group3Aux_map (f : Char → Char) (sep : Char) (l : List Char) :
    (group3Aux sep l).map f = group3Aux (f sep) (l.map f) := by
  induction l using group3Aux.induct sep with
  | case1 a b d e t ih => simp [group3Aux, ih]
  | case2 l hl =>
    rw [group3Aux_short sep l hl, group3Aux_short (f sep) (l.map f) ?_]
    intro a b c d t hmap
    match l, hmap with
    | x1 :: l1, hmap =>
      match l1, hmap with
      | x2 :: l2, hmap =>
        match l2, hmap with
        | x3 :: l3, hmap =>
          match l3, hmap with
          | x4 :: l4, hmap => exact hl x1 x2 x3 x4 l4 rfl

theorem natDigitsAux_mem (fuel : ℕ) : ∀ (n : ℕ) (c : Char), c ∈ natDigitsAux fuel n →
    ∃ k, c = digitChar k := by
  induction fuel with
  | zero => intro n c h; simp [natDigitsAux] at h
  | succ f ih =>
    intro n c h
    simp only [natDigitsAux] at h
    by_cases hn : n < 10
    · rw [if_pos hn] at h
      simp at h
      exact ⟨n, h⟩
    · rw [if_neg hn] at h
      rcases List.mem_append.mp h with h' | h'
      · exact ih _ c h'
      · simp at h'
        exact ⟨n % 10, h'⟩

theorem natDigits_mem (n : ℕ) (c : Char) (h : c ∈ natDigits n) : ∃ k, c = digitChar k :=
  natDigitsAux_mem (n + 1) n c h

theorem pad2_mem (n : ℕ) (c : Char) (h : c ∈ pad2 n) : ∃ k, c = digitChar k := by
  unfold pad2 at h
  by_cases hn : n < 10
  · rw [if_pos hn] at h
    rcases List.mem_cons.mp h with rfl | h'
    · exact ⟨0, rfl⟩
    · exact natDigits_mem n c h'
  · rw [if_neg hn] at h
    exact natDigits_mem n c h

theorem map_fixes_natDigits (f : Char → Char) (hf : ∀ k, f (digitChar k) = digitChar k)
    (m : ℕ) : (natDigits m).map f = natDigits m := by
  have h : (natDigits m).map f = (natDigits m).map id := by
    apply List.map_congr_left
    intro c hc
    obtain ⟨k, rfl⟩ := natDigits_mem m c hc
    exact hf k
  rw [h, List.map_id]

theorem map_fixes_pad2 (f : Char → Char) (hf : ∀ k, f (digitChar k) = digitChar k)
    (m : ℕ) : (pad2 m).map f = pad2 m := by
  have h : (pad2 m).map f = (pad2 m).map id := by
    apply List.map_congr_left
    intro c hc
    obtain ⟨k, rfl⟩ := pad2_mem m c hc
    exact hf k
  rw [h, List.map_id]

theorem swapSep_digitChar (k : ℕ) : swapSep (digitChar k) = digitChar k := by
  obtain ⟨h1, h2, _⟩ := digitChar_not_special k
  simp [swapSep, h1, h2]

theorem repl3_eq_map_swap (cs : List Char) (hx : ∀ c ∈ cs, ¬ c = 'X') :
    replChar 'X' '.' (replChar '.' ',' (replChar ',' 'X' (String.mk cs))) =
      String.mk (cs.map swapSep) := by
  show String.mk (((cs.map _).map _).map _) = _
  rw [List.map_map, List.map_map]
  apply congrArg String.mk
  apply List.map_congr_left
  intro c hc
  simp only [Function.comp]
  by_cases h1 : c = ','
  · subst h1
    simp [swapSep]
  · by_cases h2 : c = '.'
    · subst h2
      simp [swapSep]
    · simp [swapSep, h1, h2, hx c hc]

theorem map_swap_group3_comma (ds : List Char) (hd : ∀ c ∈ ds, ∃ k, c = digitChar k) :
    (group3 ',' ds).map swapSep = group3 '.' ds := by
  unfold group3
  rw [List.map_reverse, group3Aux_map]
  have h1 : swapSep ',' = '.' := by decide
  have h2 : (ds.reverse).map swapSep = ds.reverse := by
    have h : (ds.reverse).map swapSep = (ds.reverse).map id := by
      apply List.map_congr_left
      intro c hc
      obtain ⟨k, rfl⟩ := hd c (List.mem_reverse.mp hc)
      exact swapSep_digitChar k
    rw [h, List.map_id]
  rw [h1, h2]

theorem usFmt2_no_X (q : ℚ) : ∀ c ∈ usFmt2 q, ¬ c = 'X' := by
  intro c hc
  unfold usFmt2 at hc
  rcases List.mem_append.mp hc with h | h
  · rcases List.mem_append.mp h with h' | h'
    · by_cases hq : q < 0
      · rw [if_pos hq] at h'
        rcases List.mem_singleton.mp h' with rfl
        decide
      · rw [if_neg hq] at h'
        simp at h'
    · rcases group3Aux_mem _ _ _ (List.mem_reverse.mp h') with h'' | h''
      · subst h''
        decide
      · obtain ⟨k, rfl⟩ := natDigits_mem _ c (List.mem_reverse.mp h'')
        exact (digitChar_not_special k).2.2
  · rcases List.mem_cons.mp h with rfl | h'
    · decide
    · obtain ⟨k, rfl⟩ := pad2_mem _ c h'
      exact (digitChar_not_special k).2.2

theorem map_swap_usFmt2 (q : ℚ) : (usFmt2 q).map swapSep = (brNumber q).data := by
  unfold usFmt2 brNumber
  rw [List.map_append, List.map_append]
  have hsign : (if q < 0 then ['-'] else []).map swapSep = (if q < 0 then ['-'] else []) := by
    by_cases hq : q < 0
    · rw [if_pos hq]
      decide
    · rw [if_neg hq]
      rfl
  rw [hsign]
  have hgrp := map_swap_group3_comma (natDigits ((roundHalfEven (q * 100)).natAbs / 100))
    (fun c hc => natDigits_mem _ c hc)
  rw [hgrp]
  have hdot : ('.' :: pad2 ((roundHalfEven (q * 100)).natAbs % 100)).map swapSep =
      ',' :: pad2 ((roundHalfEven (q * 100)).natAbs % 100) := by
    rw [List.map_cons]
    have h1 : swapSep '.' = ',' := by decide
    rw [h1, map_fixes_pad2 swapSep swapSep_digitChar]
  rw [hdot]

theorem fmt_rs_num (q : ℚ) : fmt_rs (FVal.num q) = "R$ " ++ brNumber q := by
  show replChar 'X' '.' (replChar '.' ',' (replChar ',' 'X'
      (String.mk ("R$ ".data ++ usFmt2 q)))) = _
  rw [repl3_eq_map_swap]
  · rw [List.map_append]
    have hpre : ("R$ ".data).map swapSep = "R$ ".data := by decide
    rw [hpre, map_swap_usFmt2]
    rfl
  · intro c hc
    rcases List.mem_append.mp hc with h | h
    · have hm : c = 'R' ∨ c = '$' ∨ c = ' ' := by
        have : c ∈ ['R', '$', ' '] := h
        simpa using this
      rcases hm with rfl | rfl | rfl
      · decide
      · decide
      · decide
    · exact usFmt2_no_X q c h

theorem pctChar_fix (k : ℕ) :
    (fun c => if c = '.' then ',' else c) (digitChar k) = digitChar k := by
  obtain ⟨_, h2, _⟩ := digitChar_not_special k
  simp [h2]

theorem fmt_pct_num (q : ℚ) : fmt_pct (FVal.num q) = brPct q := by
  show String.mk ((usFmt2ng q ++ ['%']).map (fun c => if c = '.' then ',' else c)) = _
  show String.mk ((((if q < 0 then ['-'] else []) ++
      natDigits ((roundHalfEven (q * 100)).natAbs / 100) ++
      '.' :: pad2 ((roundHalfEven (q * 100)).natAbs % 100)) ++ ['%']).map
        (fun c => if c = '.' then ',' else c)) =
    String.mk ((if q < 0 then ['-'] else []) ++
      natDigits ((roundHalfEven (q * 100)).natAbs / 100) ++
      ',' :: pad2 ((roundHalfEven (q * 100)).natAbs % 100) ++ ['%'])
  apply congrArg String.mk
  have hsign : ((if q < 0 then ['-'] else []).map (fun c => if c = '.' then ',' else c)) =
      (if q < 0 then ['-'] else []) := by
    by_cases hq : q < 0
    · rw [if_pos hq]
      decide
    · rw [if_neg hq]
      rfl
  have hdig := map_fixes_natDigits (fun c => if c = '.' then ',' else c) pctChar_fix
    ((roundHalfEven (q * 100)).natAbs / 100)
  have hpad := map_fixes_pad2 (fun c => if c = '.' then ',' else c) pctChar_fix
    ((roundHalfEven (q * 100)).natAbs % 100)
  simp only [List.map_append, List.map_cons, List.map_nil, hsign, hdig, hpad]
  simp [List.append_assoc]

theorem roundHalfEven_intCast (n : ℤ) : roundHalfEven ((n : ℤ) : ℚ) = n := by
  simp only [roundHalfEven, Int.floor_intCast, sub_self]
  norm_num

/-- Claim C9. Currency formatting renders null as the empty string and a
finite value as "R$ " followed by the value with "." as thousands separator
and "," as decimal separator to two decimal places (the spec-side rendering
`brNumber`); percentage formatting renders null as the empty string and a
finite value to two decimals with "." replaced by "," and "%" appended (the
spec-side rendering `brPct`); in particular 1234.5 renders as
"R$ 1.234,50". -/
theorem C9_formatting :
    fmt_rs FVal.nan = "" ∧ fmt_pct FVal.nan = "" ∧
    (∀ q : ℚ, fmt_rs (FVal.num q) = "R$ " ++ brNumber q) ∧
    (∀ q : ℚ, fmt_pct (FVal.num q) = brPct q) ∧
    fmt_rs (FVal.num (1234.5 : ℚ)) = "R$ 1.234,50" := by
  refine ⟨rfl, rfl, fmt_rs_num, fmt_pct_num, ?_⟩
  rw [fmt_rs_num]
  have harg : (1234.5 : ℚ) * 100 = ((123450 : ℤ) : ℚ) := by norm_num
  have hb : brNumber (1234.5 : ℚ) = "1.234,50" := by
    unfold brNumber
    rw [harg, roundHalfEven_intCast]
    have hsign : ¬ (1234.5 : ℚ) < 0 := by norm_num
    rw [if_neg hsign]
    have hna : ((123450 : ℤ)).natAbs = 123450 := rfl
    rw [hna]
    decide
  rw [hb]
  rfl
